import Mathlib

/-
Shallow embedding of the wizard-battle combat engine
(`projects/week_2/wizard_prompt_battle/{classes.py, game_state.py, game.py}`).

Modelling conventions:
* Python `int` values (health, mana, remaining turns, damage, indices) are `ℤ`/`ℕ`.
* Python `float` values (attributes, multipliers, effect magnitudes) are `ℝ`
  (idealized real arithmetic; float rounding error is not modelled).
* Python's built-in `round` (banker's rounding, half to even) is `pyRound`.
* Randomness is made explicit: `random.random()` accuracy rolls become a
  `roll : ℝ` parameter compared against the accuracy, and
  `random.uniform(1-pct, 1+pct)` variance draws become a unit sample
  `u : ℝ` mapped affinely through `vary`.
* A Python `raise` becomes `Except.error`; mutation of `self` becomes an
  explicit state-passing function returning the new `GameState`.
-/

namespace WizardBattle

/-- Python 3 `round(x)`: round half to even, returning an integer. -/
noncomputable def pyRound (x : ℝ) : ℤ :=
  let f := ⌊x⌋
  let r := x - f
  if r < 1/2 then f
  else if 1/2 < r then f + 1
  else if Even f then f else f + 1

/-- Python 3 `round(x, 3)`: round to 3 decimal places, half to even. -/
noncomputable def pyRound3 (x : ℝ) : ℝ := (pyRound (x * 1000) : ℝ) / 1000

/-- `classes._vary(value, pct)` = `value * random.uniform(1-pct, 1+pct)`.
The uniform draw is made explicit through its unit sample `u ∈ [0, 1]`:
`uniform(a, b) = a + (b - a) * u`. -/
noncomputable def vary (value pct u : ℝ) : ℝ :=
  value * ((1 - pct) + 2 * pct * u)

/-- `classes.Element`: the seven fixed elements. -/
inductive Element where
  | FIRE | ICE | STORM | LIFE | DEATH | MYTH | BALANCE
deriving DecidableEq, Repr

/-- The Python enum member name (`Element.FIRE.name = "FIRE"`). -/
def Element.name : Element → String
  | .FIRE => "FIRE"
  | .ICE => "ICE"
  | .STORM => "STORM"
  | .LIFE => "LIFE"
  | .DEATH => "DEATH"
  | .MYTH => "MYTH"
  | .BALANCE => "BALANCE"

/-- Display names from the `Element` enum table. -/
def Element.display_name : Element → String
  | .FIRE => "Fire"
  | .ICE => "Ice"
  | .STORM => "Storm"
  | .LIFE => "Life"
  | .DEATH => "Death"
  | .MYTH => "Myth"
  | .BALANCE => "Balance"

/-- Strength lists from the `Element` enum table (element names as strings,
exactly as in the source). -/
def Element.strengths : Element → List String
  | .FIRE => ["ICE", "DEATH"]
  | .ICE => ["STORM", "MYTH"]
  | .STORM => ["FIRE", "LIFE"]
  | .LIFE => ["DEATH", "MYTH"]
  | .DEATH => ["LIFE", "BALANCE"]
  | .MYTH => ["FIRE", "DEATH"]
  | .BALANCE => ["STORM", "MYTH"]

/-- Weakness lists from the `Element` enum table. -/
def Element.weaknesses : Element → List String
  | .FIRE => ["STORM", "MYTH"]
  | .ICE => ["FIRE", "LIFE"]
  | .STORM => ["ICE", "BALANCE"]
  | .LIFE => ["STORM", "ICE"]
  | .DEATH => ["FIRE", "MYTH"]
  | .MYTH => ["ICE", "LIFE"]
  | .BALANCE => ["DEATH", "LIFE"]

/-- Base accuracies from the `Element` enum table. -/
noncomputable def Element.accuracy : Element → ℝ
  | .FIRE => 0.75
  | .ICE => 0.8
  | .STORM => 0.7
  | .LIFE => 0.9
  | .DEATH => 0.85
  | .MYTH => 0.8
  | .BALANCE => 0.85

/-- `Element[name]` lookup used by the JSON factories; `none` models the
`KeyError` raised on an unknown name. -/
def Element.fromName (s : String) : Option Element :=
  if s = "FIRE" then some .FIRE
  else if s = "ICE" then some .ICE
  else if s = "STORM" then some .STORM
  else if s = "LIFE" then some .LIFE
  else if s = "DEATH" then some .DEATH
  else if s = "MYTH" then some .MYTH
  else if s = "BALANCE" then some .BALANCE
  else none

/-- `classes.ActionType`. -/
inductive ActionType where
  | CAST_SPELL | HEAL | DEFEND
deriving DecidableEq, Repr

/-- `classes.ActionTarget`. -/
inductive ActionTarget where
  | SELF | ENEMY
deriving DecidableEq, Repr

/-- `classes.SpellType`. -/
inductive SpellType where
  | DAMAGE | BUFF | DEBUFF
deriving DecidableEq, Repr

/-- `SpellType[name]` lookup used by `Spell.build_from_json`. -/
def SpellType.fromName (s : String) : Option SpellType :=
  if s = "DAMAGE" then some .DAMAGE
  else if s = "BUFF" then some .BUFF
  else if s = "DEBUFF" then some .DEBUFF
  else none

/-- `SpellType.variance`: fixed variance per spell kind. -/
noncomputable def SpellType.variance : SpellType → ℝ
  | .DAMAGE => 0.1
  | .BUFF => 0.05
  | .DEBUFF => 0.05

/-- `classes.Spell` constructor data (name, kind, description, element,
strength). -/
structure Spell where
  name : String
  spell_type : SpellType
  description : String
  element : Element
  strength : ℝ

/-- `classes.Action` and its three concrete subclasses, as one inductive:
`Heal(wizard)` captures the wizard's healing attribute as its strength,
`Defend(element)` carries the shield element, `Spell` carries its record. -/
inductive Action where
  | heal (strength : ℝ)
  | defend (element : Element)
  | castSpell (s : Spell)

namespace Action

/-- The `action_type` field set by each subclass constructor. -/
def action_type : Action → ActionType
  | .heal _ => .HEAL
  | .defend _ => .DEFEND
  | .castSpell _ => .CAST_SPELL

/-- The `strength` field: `Heal` uses the wizard's healing attribute,
`Defend` passes `1.0`, `Spell` its own strength. -/
def strength : Action → ℝ
  | .heal s => s
  | .defend _ => 1.0
  | .castSpell s => s.strength

/-- The `accuracy` field: `Heal.ACCURACY = 0.95`, `Defend.ACCURACY = 1.0`,
spells use their element's accuracy. -/
noncomputable def accuracy : Action → ℝ
  | .heal _ => 0.95
  | .defend _ => 1.0
  | .castSpell s => s.element.accuracy

/-- The `variance` field: `Heal.VARIANCE = 0.1`, `Defend.VARIANCE = 0.0`,
spells use their kind's variance. -/
noncomputable def variance : Action → ℝ
  | .heal _ => 0.1
  | .defend _ => 0.0
  | .castSpell s => s.spell_type.variance

/-- `action_target()`: Heal→SELF, Defend→SELF, Spell per kind. -/
def action_target : Action → ActionTarget
  | .heal _ => .SELF
  | .defend _ => .SELF
  | .castSpell s =>
      match s.spell_type with
      | .DAMAGE => .ENEMY
      | .BUFF => .SELF
      | .DEBUFF => .ENEMY

/-- The duck-typed `action.element` attribute (Heal has none; accessing it
there raises `AttributeError` in Python, modelled as `none`). -/
def element? : Action → Option Element
  | .heal _ => none
  | .defend e => some e
  | .castSpell s => some s.element

/-- The duck-typed `action.name` attribute (only `Spell` defines one). -/
def name? : Action → Option String
  | .heal _ => none
  | .defend _ => none
  | .castSpell s => some s.name

/-- `Heal._healing_base`: `150.0 * ((5.0 / 3.0) ** (strength ** 1.8))`. -/
noncomputable def healing_base (strength : ℝ) : ℝ :=
  150.0 * ((5.0 / 3.0) ^ (strength ^ (1.8 : ℝ)))

/-- `mana_cost()` per subclass:
Heal `round(3 * 2 ** (strength ** 1.15))`, Defend `0`,
Spell `round(3 * (10.0 / 3.0) ** (strength ** 1.15))`. -/
noncomputable def mana_cost : Action → ℤ
  | .heal s => pyRound (3 * (2 : ℝ) ^ (s ^ (1.15 : ℝ)))
  | .defend _ => 0
  | .castSpell sp => pyRound (3 * ((10.0 / 3.0) : ℝ) ^ (sp.strength ^ (1.15 : ℝ)))

/-- `failure_announcement(wizard)` strings (given the wizard's name). -/
def failure_announcement (a : Action) (wizardName : String) : String :=
  match a with
  | .heal _ => wizardName ++ " casts heal... but it failed!"
  | .defend _ => wizardName ++ " failed a defense? How?!?!?"
  | .castSpell s => wizardName ++ " casts " ++ s.name ++ "... but it failed!"

end Action

/-- The heterogeneous `result["value"]` payload: ints (heal/damage),
floats (buff/debuff magnitudes), or the element (defend). -/
inductive ActionValue where
  | int (n : ℤ)
  | real (r : ℝ)
  | elem (e : Element)

/-- The result dict returned by `Action.perform_action`. -/
structure ActionResult where
  succeeded : Bool
  value : Option ActionValue := none
  action_type : Option ActionType := none
  spell_type : Option SpellType := none
  target : Option ActionTarget := none

/-- `Spell._base_spell_value`. The Python exponent `strength ** 2` uses the
integer literal 2, modelled as a natural power. -/
noncomputable def Spell.base_spell_value (s : Spell) : ℝ :=
  match s.spell_type with
  | .DAMAGE => 100.0 * (2.0 : ℝ) ^ (s.strength ^ (2 : ℕ))
  | .BUFF => 0.1 * ((0.25 / 0.1) : ℝ) ^ (s.strength ^ (1.8 : ℝ))
  | .DEBUFF => 0.1 * ((0.25 / 0.1) : ℝ) ^ (s.strength ^ (1.8 : ℝ))

/-- `Spell.perform_action_subclass` (with `_varied_spell_value` and
`_round_spell_value` inlined): DAMAGE values are rounded to int, BUFF/DEBUFF
values to 3 decimals. `u` is the variance unit sample. -/
noncomputable def Spell.perform_action_subclass (s : Spell) (u : ℝ) : ActionResult :=
  let varied := vary s.base_spell_value s.spell_type.variance u
  { succeeded := true
    value := some (match s.spell_type with
      | .DAMAGE => .int (pyRound varied)
      | .BUFF => .real (pyRound3 varied)
      | .DEBUFF => .real (pyRound3 varied))
    action_type := some .CAST_SPELL
    spell_type := some s.spell_type
    target := some (Action.action_target (.castSpell s)) }

/-- `perform_action_subclass` for each subclass.
Heal: `max(0, round(vary(healing_base, 0.1)))` health restored. -/
noncomputable def Action.perform_action_subclass : Action → ℝ → ActionResult
  | .heal s, u =>
      { succeeded := true
        value := some (.int (max 0 (pyRound (vary (Action.healing_base s) 0.1 u))))
        action_type := some .HEAL
        target := some .SELF }
  | .defend e, _ =>
      { succeeded := true
        value := some (.elem e)
        action_type := some .DEFEND
        target := some .SELF }
  | .castSpell s, u => s.perform_action_subclass u

/-- `Action.perform_action`: the accuracy roll `random.random() <= accuracy`
is modelled by the explicit sample `roll`; on failure only
`{"succeeded": False}` is returned. -/
noncomputable def Action.perform_action (a : Action) (roll u : ℝ) : ActionResult :=
  if roll ≤ a.accuracy then a.perform_action_subclass u
  else { succeeded := false }

/-- `classes.Wizard`: identity, elements, the five attributes, spells and
combat style. -/
structure Wizard where
  name : String
  primary_element : Element
  secondary_element : Element
  attack : ℝ
  defense : ℝ
  health : ℝ
  healing : ℝ
  arcane : ℝ
  spells : List Spell
  combat_style : String

namespace Wizard

/-- `max_hp()` = `max(1, round(vary(500 * 2 ** (health ** 2))))`;
`u` is the variance unit sample. -/
noncomputable def max_hp (w : Wizard) (u : ℝ) : ℤ :=
  max 1 (pyRound (vary (500.0 * (2.0 : ℝ) ^ (w.health ^ (2 : ℕ))) 0.1 u))

/-- `damage_multiplier()` = `1.25 ** (attack ** 2)`. -/
noncomputable def damage_multiplier (w : Wizard) : ℝ :=
  (1.25 : ℝ) ^ (w.attack ^ (2 : ℕ))

/-- `damage_reduction()` = `1.1 * (8/11) ** (defense ** 1.8)`. -/
noncomputable def damage_reduction (w : Wizard) : ℝ :=
  1.1 * ((8.0 / 11.0) : ℝ) ^ (w.defense ^ (1.8 : ℝ))

/-- `starting_mana()` = `max(0, round(vary(10 * 2 ** (arcane ** 1.3))))`. -/
noncomputable def starting_mana (w : Wizard) (u : ℝ) : ℤ :=
  max 0 (pyRound (vary (10.0 * (2.0 : ℝ) ^ (w.arcane ^ (1.3 : ℝ))) 0.1 u))

/-- `mana_per_round()` = `round(2 * 2.5 ** (arcane ** 1.15))`. -/
noncomputable def mana_per_round (w : Wizard) : ℤ :=
  pyRound (2 * (2.5 : ℝ) ^ (w.arcane ^ (1.15 : ℝ)))

/-- The spell sort priority dict in `all_actions` (every `SpellType` is a
key, so the `float("inf")` default is never used). -/
def spellPriority : SpellType → ℕ
  | .DAMAGE => 0
  | .BUFF => 1
  | .DEBUFF => 2

/-- The comparison induced by Python's `sorted(key=(priority, name.lower()))`:
lexicographic on the key tuple. -/
def spellSortLE (a b : Spell) : Bool :=
  spellPriority a.spell_type < spellPriority b.spell_type ||
    (spellPriority a.spell_type == spellPriority b.spell_type &&
      decide (a.name.toLower ≤ b.name.toLower))

/-- `all_actions()`: spells sorted by (kind priority, lowercased name),
then one Heal (strength = the wizard's healing attribute), then a Defend
per held element, primary first. -/
def all_actions (w : Wizard) : List Action :=
  let sorted_spells := w.spells.mergeSort spellSortLE
  sorted_spells.map Action.castSpell ++
    [.heal w.healing, .defend w.primary_element, .defend w.secondary_element]

/-- `affordable_actions(mana_cap)`: filter of `all_actions()` by
`mana_cost() <= mana_cap`. -/
noncomputable def affordable_actions (w : Wizard) (mana_cap : ℤ) : List Action :=
  w.all_actions.filter (fun action => action.mana_cost ≤ mana_cap)

end Wizard

/-- `game_state.StatusEffectType`. -/
inductive StatusEffectType where
  | DEFENSE | BUFF | DEBUFF
deriving DecidableEq, Repr

/-- `game_state.StatusEffect`. -/
structure StatusEffect where
  name : String
  effect_type : StatusEffectType
  value : ℝ
  remaining_turns : ℤ

namespace StatusEffect

def is_buff (e : StatusEffect) : Bool := e.effect_type == .BUFF

def is_debuff (e : StatusEffect) : Bool := e.effect_type == .DEBUFF

def is_defense (e : StatusEffect) : Bool := e.effect_type == .DEFENSE

end StatusEffect

/-- `game_state.Player`. -/
structure Player where
  id : ℕ
  wizard : Wizard

/-- `game_state.PlayerState`. -/
structure PlayerState where
  player : Player
  max_health : ℤ
  current_health : ℤ
  current_mana : ℤ
  active_effects : List StatusEffect := []

namespace PlayerState

def buffs (s : PlayerState) : List StatusEffect :=
  s.active_effects.filter (fun effect => effect.is_buff)

def debuffs (s : PlayerState) : List StatusEffect :=
  s.active_effects.filter (fun effect => effect.is_debuff)

def defenses (s : PlayerState) : List StatusEffect :=
  s.active_effects.filter (fun effect => effect.is_defense)

end PlayerState

/-- `game_state.ActionRecord`. -/
structure ActionRecord where
  actor_id : ℕ
  type : ActionType
  target : ActionTarget
  result : String

/-- `game_state.EffectGroup`. -/
inductive EffectGroup where
  | BUFFS_AND_DEBUFFS | DEFENSES

/-- `EffectGroup.includes`. -/
def EffectGroup.includes : EffectGroup → StatusEffect → Bool
  | .BUFFS_AND_DEBUFFS, effect => effect.is_buff || effect.is_debuff
  | .DEFENSES, effect => effect.is_defense

/-- What `perform_action` returns on the `Except.ok` path: either the
failure announcement string, or the success announcement (whose rendering
of the realized value we keep as structured data, since Python float
formatting is out of scope). -/
inductive TurnOutcome where
  | failure (message : String)
  | success (wizardName : String) (action : Action) (value : Option ActionValue)

/-- `game_state.GameState`: the two player snapshots and the action log. -/
structure GameState where
  player_states : List PlayerState := []
  action_log : List ActionRecord := []

namespace GameState

/-- Write back one player's snapshot (Python mutates the list entry). -/
def setPlayerState (gs : GameState) (i : ℕ) (s : PlayerState) : GameState :=
  { gs with player_states := gs.player_states.set i s }

/-- The `GameState` init step (Python method named after setting up the match): `random.shuffle` of the two-element
list is modelled by the explicit `swap` flag; `uh/um` are the variance unit
samples consumed by `max_hp()` and `starting_mana()` for each slot. The
Python method also returns the assigned wizards, which callers can read off
the state. -/
noncomputable def initMatch (wizard1 wizard2 : Wizard) (swap : Bool)
    (uh1 um1 uh2 um2 : ℝ) : GameState :=
  let first := if swap then wizard2 else wizard1
  let second := if swap then wizard1 else wizard2
  { player_states := [
      { player := ⟨0, first⟩
        max_health := first.max_hp uh1
        current_health := first.max_hp uh1
        current_mana := first.starting_mana um1 },
      { player := ⟨1, second⟩
        max_health := second.max_hp uh2
        current_health := second.max_hp uh2
        current_mana := second.starting_mana um2 }]
    action_log := [] }

/-- `change_health`: clamp into `[0, max_health]`. Python indexes
`player_states[player.id]` (raising on a bad id, a path no caller hits;
modelled as a no-op). -/
def change_health (gs : GameState) (player : Player) (delta : ℤ) : GameState :=
  match gs.player_states[player.id]? with
  | some s => gs.setPlayerState player.id
      { s with current_health := max 0 (min s.max_health (s.current_health + delta)) }
  | none => gs

/-- `set_health`. -/
def set_health (gs : GameState) (player : Player) (value : ℤ) : GameState :=
  match gs.player_states[player.id]? with
  | some s => gs.setPlayerState player.id
      { s with current_health := max 0 (min s.max_health value) }
  | none => gs

/-- `change_mana`: floor at 0. -/
def change_mana (gs : GameState) (player : Player) (delta : ℤ) : GameState :=
  match gs.player_states[player.id]? with
  | some s => gs.setPlayerState player.id
      { s with current_mana := max 0 (s.current_mana + delta) }
  | none => gs

/-- `set_mana`. -/
def set_mana (gs : GameState) (player : Player) (value : ℤ) : GameState :=
  match gs.player_states[player.id]? with
  | some s => gs.setPlayerState player.id { s with current_mana := max 0 value }
  | none => gs

/-- The list transform inside `add_status_effect`: the first effect with a
matching name gets ONLY its `remaining_turns` replaced (its `value` is left
as it was); otherwise the effect is appended. -/
def addStatusEffectList (l : List StatusEffect) (effect : StatusEffect) :
    List StatusEffect :=
  match l with
  | [] => [effect]
  | x :: xs =>
      if x.name == effect.name then
        { x with remaining_turns := effect.remaining_turns } :: xs
      else
        x :: addStatusEffectList xs effect

/-- `add_status_effect(player, effect)`. -/
def add_status_effect (gs : GameState) (player : Player) (effect : StatusEffect) :
    GameState :=
  match gs.player_states[player.id]? with
  | some s => gs.setPlayerState player.id
      { s with active_effects := addStatusEffectList s.active_effects effect }
  | none => gs

/-- `clear_expired_effects(player)`. -/
def clear_expired_effects (gs : GameState) (player : Player) : GameState :=
  match gs.player_states[player.id]? with
  | some s => gs.setPlayerState player.id
      { s with active_effects :=
          s.active_effects.filter (fun effect => 0 < effect.remaining_turns) }
  | none => gs

/-- `tick_effects()`: every effect on every player has its countdown
reduced by one, floored at 0 (no removal). -/
def tick_effects (gs : GameState) : GameState :=
  { gs with player_states := gs.player_states.map (fun s =>
      { s with active_effects := s.active_effects.map (fun effect =>
          { effect with remaining_turns := max 0 (effect.remaining_turns - 1) }) }) }

/-- `log_action(record)`. -/
def log_action (gs : GameState) (record : ActionRecord) : GameState :=
  { gs with action_log := gs.action_log ++ [record] }

/-- The list transform inside `_apply_status`: the first effect with a
matching name gets its `remaining_turns` AND `value` replaced; otherwise the
effect is appended. -/
def applyStatusList (l : List StatusEffect) (effect : StatusEffect) :
    List StatusEffect :=
  match l with
  | [] => [effect]
  | x :: xs =>
      if x.name == effect.name then
        { x with remaining_turns := effect.remaining_turns, value := effect.value } :: xs
      else
        x :: applyStatusList xs effect

/-- The loop of `_decrement_effects`: effects in `group` have their
countdown reduced by one (floored at 0); only effects whose countdown is
still positive are kept in `updated`. -/
def decrementEffectsList (group : EffectGroup) :
    List StatusEffect → List StatusEffect
  | [] => []
  | effect :: rest =>
      let effect' :=
        if group.includes effect then
          { effect with remaining_turns := max 0 (effect.remaining_turns - 1) }
        else effect
      if 0 < effect'.remaining_turns then
        effect' :: decrementEffectsList group rest
      else
        decrementEffectsList group rest

/-- `_decay_effects(actor_index)`: the actor's BUFFs/DEBUFFs and the
defender's DEFENSEs are decremented and expired entries dropped. -/
def decay_effects (gs : GameState) (actor_index : ℕ) : GameState :=
  match gs.player_states[actor_index]?, gs.player_states[1 - actor_index]? with
  | some actor_state, some defender_state =>
      (gs.setPlayerState actor_index
        { actor_state with active_effects :=
            decrementEffectsList .BUFFS_AND_DEBUFFS actor_state.active_effects
        }).setPlayerState (1 - actor_index)
        { defender_state with active_effects :=
            decrementEffectsList .DEFENSES defender_state.active_effects }
  | _, _ => gs

/-- `_apply_heal(actor_state, amount)`: clamp at max HP, return the new
snapshot and the amount actually healed. -/
def apply_heal (actor_state : PlayerState) (amount : ℤ) : PlayerState × ℤ :=
  let new_health := min actor_state.max_health (actor_state.current_health + amount)
  let healed := new_health - actor_state.current_health
  ({ actor_state with current_health := new_health }, healed)

/-- The real-valued damage expression of `_calculate_damage` before the
final `max(0, int(round(damage)))`. -/
noncomputable def damageRaw (actor defender : PlayerState) (spell : Spell)
    (base_damage : ℤ) : ℝ :=
  let actor_multiplier :=
    (actor.debuffs).foldl (fun m debuff => m * max 0 (1 - debuff.value))
      ((actor.buffs).foldl (fun m buff => m * (1 + buff.value))
        actor.player.wizard.damage_multiplier)
  let defender_multiplier :=
    (defender.debuffs).foldl (fun m debuff => m * max 0 (1 - debuff.value))
      ((defender.buffs).foldl (fun m buff => m * (1 + buff.value))
        defender.player.wizard.damage_reduction)
  let damage := (base_damage : ℝ) * actor_multiplier * defender_multiplier
  (defender.defenses).foldl (fun dmg defense =>
      if spell.element.strengths.contains defense.name then dmg * 1.05
      else if spell.element.weaknesses.contains defense.name then dmg * 0.5
      else dmg * 0.9)
    damage

/-- `_calculate_damage(actor, defender, spell, base_damage)`. In the source
`spell` is the acting `Action`; the only call site passes a `Spell` action
(any other action would raise `AttributeError` at `spell.element`), so the
model takes the `Spell` record. -/
noncomputable def calculate_damage (actor defender : PlayerState) (spell : Spell)
    (base_damage : ℤ) : ℤ :=
  max 0 (pyRound (damageRaw actor defender spell base_damage))

/-- `_apply_damage(defender_state, damage)`: HP floored at 0. -/
def apply_damage (defender_state : PlayerState) (damage : ℤ) : PlayerState :=
  { defender_state with
      current_health := max 0 (defender_state.current_health - damage) }

/-- `increment_mana()`. -/
noncomputable def increment_mana (gs : GameState) : GameState :=
  { gs with player_states := gs.player_states.map (fun s =>
      { s with current_mana := s.current_mana + s.player.wizard.mana_per_round }) }

/-- `get_winner()`: `None` models both "match ongoing" and the uninitialized
`IndexError` path no caller reaches. -/
def get_winner (gs : GameState) : Option Wizard :=
  match gs.player_states[0]?, gs.player_states[1]? with
  | some s0, some s1 =>
      if s0.current_health ≤ 0 then some s1.player.wizard
      else if s1.current_health ≤ 0 then some s0.player.wizard
      else none
  | _, _ => none

/-- `perform_action(actor_index, action)`. `roll` is the accuracy sample and
`u` the variance unit sample consumed inside `action.perform_action()`.
Python `raise` paths (bad index, insufficient mana, a missing list entry's
`IndexError`, and the type errors of the statically unreachable dispatch
mismatches) are `Except.error`. The inner Python `match` statements fall
through silently when no case fires, so the `none` dispatch arms proceed
straight to the decay step and the success announcement. -/
noncomputable def perform_action (gs : GameState) (actor_index : ℕ)
    (action : Action) (roll u : ℝ) : Except String (GameState × TurnOutcome) :=
  if actor_index ≠ 0 ∧ actor_index ≠ 1 then
    .error "actor_index must be 0 or 1"
  else
    match gs.player_states[actor_index]?, gs.player_states[1 - actor_index]? with
    | some actor_state, some defender_state =>
      if action.mana_cost > actor_state.current_mana then
        .error "Not enough mana to perform action"
      else
        let result := action.perform_action roll u
        if result.succeeded = false then
          let gs1 := gs.log_action
            ⟨actor_index, action.action_type, action.action_target, "Failed :("⟩
          .ok (gs1.decay_effects actor_index,
               .failure (action.failure_announcement actor_state.player.wizard.name))
        else
          let actor_state1 := { actor_state with
            current_mana := max 0 (actor_state.current_mana - action.mana_cost) }
          let gs1 := gs.setPlayerState actor_index actor_state1
          match result.action_type with
          | some ActionType.HEAL =>
            match result.value with
            | some (.int amount) =>
                let hres := apply_heal actor_state1 amount
                let gs2 := gs1.setPlayerState actor_index hres.1
                let gs3 := gs2.log_action
                  ⟨actor_index, .HEAL, .SELF, "Healed " ++ toString hres.2⟩
                .ok (gs3.decay_effects actor_index,
                     .success actor_state.player.wizard.name action (some (.int hres.2)))
            | _ => .error "TypeError"
          | some ActionType.DEFEND =>
            match action.element? with
            | some el =>
                let effects2 := applyStatusList actor_state1.active_effects
                  ⟨el.name, .DEFENSE, 0.0, 3⟩
                let gs2 := gs1.setPlayerState actor_index
                  { actor_state1 with active_effects := effects2 }
                let gs3 := gs2.log_action
                  ⟨actor_index, .DEFEND, .SELF, "Raised " ++ el.name ++ " shield"⟩
                .ok (gs3.decay_effects actor_index,
                     .success actor_state.player.wizard.name action result.value)
            | none => .error "AttributeError"
          | some ActionType.CAST_SPELL =>
            match result.spell_type with
            | some SpellType.DAMAGE =>
              match action, result.value with
              | .castSpell sp, some (.int base) =>
                  let damage := calculate_damage actor_state1 defender_state sp base
                  let gs2 := gs1.setPlayerState (1 - actor_index)
                    (apply_damage defender_state damage)
                  let gs3 := gs2.log_action
                    ⟨actor_index, .CAST_SPELL, .ENEMY, "Dealt " ++ toString damage⟩
                  .ok (gs3.decay_effects actor_index,
                       .success actor_state.player.wizard.name action (some (.int damage)))
              | _, _ => .error "TypeError"
            | some SpellType.BUFF =>
              match action.name?, result.value with
              | some nm, some (.real v) =>
                  let effects2 := applyStatusList actor_state1.active_effects
                    ⟨nm, .BUFF, v, 4⟩
                  let gs2 := gs1.setPlayerState actor_index
                    { actor_state1 with active_effects := effects2 }
                  let gs3 := gs2.log_action
                    ⟨actor_index, .CAST_SPELL, .SELF, "Buff " ++ nm⟩
                  .ok (gs3.decay_effects actor_index,
                       .success actor_state.player.wizard.name action result.value)
              | _, _ => .error "TypeError"
            | some SpellType.DEBUFF =>
              match action.name?, result.value with
              | some nm, some (.real v) =>
                  let effects2 := applyStatusList defender_state.active_effects
                    ⟨nm, .DEBUFF, v, 3⟩
                  let gs2 := gs1.setPlayerState (1 - actor_index)
                    { defender_state with active_effects := effects2 }
                  let gs3 := gs2.log_action
                    ⟨actor_index, .CAST_SPELL, .ENEMY, "Debuff " ++ nm⟩
                  .ok (gs3.decay_effects actor_index,
                       .success actor_state.player.wizard.name action result.value)
              | _, _ => .error "TypeError"
            | none =>
                .ok (gs1.decay_effects actor_index,
                     .success actor_state.player.wizard.name action result.value)
          | none =>
              .ok (gs1.decay_effects actor_index,
                   .success actor_state.player.wizard.name action result.value)
    | _, _ => .error "IndexError: list index out of range"

end GameState

/-- Python list subscription `l[i]` with a possibly negative index:
negative indices count from the end; an index out of range after that
wrapping raises `IndexError`. -/
def pyIndex {α : Type} (l : List α) (i : ℤ) : Except String α :=
  let j : ℤ := if i < 0 then i + l.length else i
  if 0 ≤ j then
    match l[j.toNat]? with
    | some a => .ok a
    | none => .error "list index out of range"
  else .error "list index out of range"

/-- The index-to-action mapping at the end of `game.generate_action_choice`:
`affordable_actions(current_mana)[chosen - 1]` for the acting player's
wizard, with Python list indexing semantics. -/
noncomputable def choose_action (gs : GameState) (acting_wizard_index : ℕ)
    (chosen : ℤ) : Except String Action :=
  match gs.player_states[acting_wizard_index]? with
  | some s => pyIndex (s.player.wizard.affordable_actions s.current_mana) (chosen - 1)
  | none => .error "IndexError: list index out of range"

/-- Python `str.upper()` on the name strings (uppercases each character).
Defined directly on the character list so it evaluates by `rfl`/`decide`. -/
def pyUpper (s : String) : String := ⟨s.data.map Char.toUpper⟩

/-- The collaborator payload consumed by `Spell.build_from_json`; `none`
fields model missing dict keys. -/
structure SpellPayload where
  name : Option String := none
  spell_type : Option String := none
  description : Option String := none
  element : Option String := none
  strength : Option ℝ := none

/-- The `missing` key list computed by `Spell.build_from_json`. -/
def SpellPayload.missing (d : SpellPayload) : List String :=
  (if d.name.isNone then ["name"] else []) ++
    (if d.spell_type.isNone then ["spell_type"] else []) ++
    (if d.description.isNone then ["description"] else []) ++
    (if d.element.isNone then ["element"] else []) ++
    (if d.strength.isNone then ["strength"] else [])

/-- `Spell.build_from_json`: missing keys raise; `SpellType[...]` and
`Element[...]` lookups on the uppercased names raise `KeyError` on unknown
names (lookups happen in the constructor's argument order). -/
def Spell.build_from_json (data : SpellPayload) : Except String Spell :=
  match data.name, data.spell_type, data.description, data.element, data.strength with
  | some nm, some st, some desc, some el, some strg =>
      match SpellType.fromName (pyUpper st) with
      | some spell_type =>
          match Element.fromName (pyUpper el) with
          | some element => .ok ⟨nm, spell_type, desc, element, strg⟩
          | none => .error ("KeyError: " ++ pyUpper el)
      | none => .error ("KeyError: " ++ pyUpper st)
  | _, _, _, _, _ =>
      .error ("Missing keys for Spell: " ++ String.intercalate ", " data.missing)

/-- The collaborator payload consumed by `Wizard.build_from_json`. The
`spells` field is typed as a list, so the `isinstance(..., list)` guard of
the source is subsumed by the type. -/
structure WizardPayload where
  name : Option String := none
  primary_element : Option String := none
  secondary_element : Option String := none
  attack : Option ℝ := none
  defense : Option ℝ := none
  health : Option ℝ := none
  healing : Option ℝ := none
  arcane : Option ℝ := none
  combat_style : Option String := none
  spells : Option (List SpellPayload) := none

/-- The `missing` key list computed by `Wizard.build_from_json`
(in the source's `required` order). -/
def WizardPayload.missing (d : WizardPayload) : List String :=
  (if d.name.isNone then ["name"] else []) ++
    (if d.primary_element.isNone then ["primary_element"] else []) ++
    (if d.secondary_element.isNone then ["secondary_element"] else []) ++
    (if d.attack.isNone then ["attack"] else []) ++
    (if d.defense.isNone then ["defense"] else []) ++
    (if d.health.isNone then ["health"] else []) ++
    (if d.healing.isNone then ["healing"] else []) ++
    (if d.arcane.isNone then ["arcane"] else []) ++
    (if d.combat_style.isNone then ["combat_style"] else []) ++
    (if d.spells.isNone then ["spells"] else [])

/-- `Wizard.build_from_json`: missing keys raise; the spell payloads are
built first; then `Wizard(...)` is constructed with `Element[...]` lookups
evaluated primary-then-secondary. No check compares the two elements. -/
def Wizard.build_from_json (data : WizardPayload) : Except String Wizard :=
  match data.name, data.primary_element, data.secondary_element, data.attack,
      data.defense, data.health, data.healing, data.arcane, data.combat_style,
      data.spells with
  | some nm, some pe, some se, some atk, some dfn, some hlth, some healng,
      some arc, some cs, some sps => do
      let spells ← sps.mapM Spell.build_from_json
      match Element.fromName (pyUpper pe) with
      | some pel =>
          match Element.fromName (pyUpper se) with
          | some sel =>
              .ok { name := nm, primary_element := pel, secondary_element := sel,
                    attack := atk, defense := dfn, health := hlth,
                    healing := healng, arcane := arc, spells := spells,
                    combat_style := cs }
          | none => .error ("KeyError: " ++ pyUpper se)
      | none => .error ("KeyError: " ++ pyUpper pe)
  | _, _, _, _, _, _, _, _, _, _ =>
      .error ("Missing keys for Wizard: " ++ String.intercalate ", " data.missing)

/-- The match states reachable through the orchestrating loop of `game.py`:
an initialized state, then any interleaving of successful `perform_action`
resolutions and `increment_mana` rounds. -/
inductive Reachable : GameState → Prop where
  | init (wizard1 wizard2 : Wizard) (swap : Bool) (uh1 um1 uh2 um2 : ℝ) :
      Reachable (GameState.initMatch wizard1 wizard2 swap uh1 um1 uh2 um2)
  | perform (gs gs' : GameState) (actor_index : ℕ) (action : Action)
      (roll u : ℝ) (out : TurnOutcome) : Reachable gs →
      gs.perform_action actor_index action roll u = .ok (gs', out) →
      Reachable gs'
  | mana (gs : GameState) : Reachable gs → Reachable gs.increment_mana

/-- The state invariant of C1: HP within `[0, max]`, mana nonnegative. -/
def GoodState (s : PlayerState) : Prop :=
  0 ≤ s.current_health ∧ s.current_health ≤ s.max_health ∧ 0 ≤ s.current_mana

/-- A `GameState` all of whose player snapshots satisfy `GoodState`. -/
def WF (gs : GameState) : Prop := ∀ s ∈ gs.player_states, GoodState s

/-- At most one active effect per distinct name. -/
def uniqueNames (l : List StatusEffect) : Prop :=
  (l.map StatusEffect.name).Nodup

-- ===================================================================
-- Concrete fixtures used by witnesses and counterexamples
-- ===================================================================

/-- A minimal wizard: all attributes 0, no spells. -/
def testWizard : Wizard :=
  { name := "Testa", primary_element := .FIRE, secondary_element := .ICE,
    attack := 0, defense := 0, health := 0, healing := 0, arcane := 0,
    spells := [], combat_style := "calm" }

/-- A second minimal wizard. -/
def testWizard2 : Wizard :=
  { testWizard with
    name := "Ostra"
    primary_element := .STORM
    secondary_element := .MYTH }

/-- A concrete snapshot for `testWizard` in player slot `i`. -/
def testState (i : ℕ) (w : Wizard) (hp mana : ℤ)
    (effects : List StatusEffect := []) : PlayerState :=
  { player := ⟨i, w⟩, max_health := 100, current_health := hp,
    current_mana := mana, active_effects := effects }

/-- A concrete two-player game state. -/
def testGS (hp0 mana0 hp1 mana1 : ℤ)
    (effects0 : List StatusEffect := []) (effects1 : List StatusEffect := []) :
    GameState :=
  { player_states := [testState 0 testWizard hp0 mana0 effects0,
                      testState 1 testWizard2 hp1 mana1 effects1],
    action_log := [] }

/-- Modelled from the spec's description of the per-turn decay step (§4.5):
every effect of the group has its remaining-turns decremented by 1, any
effect reaching 0 is removed, and no other effect is touched. Used to
compare the spec's wording against `decrementEffectsList`. -/
def specDecay (group : EffectGroup) (l : List StatusEffect) : List StatusEffect :=
  (l.map (fun e =>
      if group.includes e then { e with remaining_turns := e.remaining_turns - 1 }
      else e)).filter
    (fun e => 0 < e.remaining_turns)

/-- C3 fixture: the pre-existing effect (value 1). -/
def c3effOld : StatusEffect := ⟨"X", .BUFF, 1, 2⟩

/-- C3 fixture: the refreshed same-named effect (value 2). -/
def c3effNew : StatusEffect := ⟨"X", .BUFF, 2, 5⟩

/-- C3 fixture: a state whose slot-0 player carries `c3effOld`. -/
def c3gs : GameState :=
  { player_states := [testState 0 testWizard 50 5 [c3effOld]], action_log := [] }

/-- C4 fixture: the attacking snapshot (all multipliers trivial). -/
def c4actor : PlayerState := testState 0 testWizard 100 10

/-- C4 fixture: the shieldless defender. -/
def c4defender : PlayerState := testState 1 testWizard2 100 10

/-- C4 fixture: a MYTH shield, which is in FIRE's weakness list. -/
def c4shield : StatusEffect := ⟨"MYTH", .DEFENSE, 0, 3⟩

/-- C4 fixture: the same defender behind the single MYTH shield. -/
def c4defenderShield : PlayerState := testState 1 testWizard2 100 10 [c4shield]

/-- C4 fixture: a FIRE damage spell. -/
def c4spell : Spell := ⟨"Bolt", .DAMAGE, "zap", .FIRE, 0⟩

/-- C9 fixture: a payload naming the same element twice (all keys present,
no spells). -/
def c9payload (e : Element) : WizardPayload :=
  { name := some "Twin", primary_element := some e.name,
    secondary_element := some e.name, attack := some 0, defense := some 0,
    health := some 0, healing := some 0, arcane := some 0,
    combat_style := some "calm", spells := some [] }

/-- C9 fixture: the wizard that payload actually constructs. -/
def c9wizard (e : Element) : Wizard :=
  { name := "Twin", primary_element := e, secondary_element := e,
    attack := 0, defense := 0, health := 0, healing := 0, arcane := 0,
    spells := [], combat_style := "calm" }

-- ===================================================================
-- Basic lemmas
-- ===================================================================

theorem floor_le_pyRound (x : ℝ) : ⌊x⌋ ≤ pyRound x := by
  simp only [pyRound]
  split
  · exact le_refl _
  · split
    · exact le_of_lt (lt_add_one _)
    · split
      · exact le_refl _
      · exact le_of_lt (lt_add_one _)

theorem le_pyRound_of_le {n : ℤ} {x : ℝ} (h : (n : ℝ) ≤ x) : n ≤ pyRound x :=
  le_trans (Int.le_floor.mpr h) (floor_le_pyRound x)

theorem pyRound_intCast (n : ℤ) : pyRound (n : ℝ) = n := by
  simp only [pyRound, Int.floor_intCast, sub_self]
  norm_num

theorem one_le_rpow_of_one_lt {b : ℝ} (hb : 1 < b) {x : ℝ} (hx : 0 ≤ x) :
    1 ≤ b ^ x := by
  calc (1 : ℝ) = b ^ (0 : ℝ) := (Real.rpow_zero b).symm
  _ ≤ b ^ x := by
      rw [Real.rpow_le_rpow_left_iff hb]
      exact hx

theorem heal_cost_ge (s : ℝ) (hs : 0 ≤ s) : 3 ≤ Action.mana_cost (.heal s) := by
  simp only [Action.mana_cost]
  have h1 : (0 : ℝ) ≤ s ^ (1.15 : ℝ) := Real.rpow_nonneg hs _
  have h2 : (1 : ℝ) ≤ (2 : ℝ) ^ (s ^ (1.15 : ℝ)) :=
    one_le_rpow_of_one_lt (by norm_num) h1
  refine le_pyRound_of_le ?_
  push_cast
  nlinarith

theorem spell_cost_ge (sp : Spell) (hs : 0 ≤ sp.strength) :
    3 ≤ Action.mana_cost (.castSpell sp) := by
  simp only [Action.mana_cost]
  have h1 : (0 : ℝ) ≤ sp.strength ^ (1.15 : ℝ) := Real.rpow_nonneg hs _
  have h2 : (1 : ℝ) ≤ ((10.0 / 3.0 : ℝ)) ^ (sp.strength ^ (1.15 : ℝ)) :=
    one_le_rpow_of_one_lt (by norm_num) h1
  refine le_pyRound_of_le ?_
  push_cast
  nlinarith

theorem heal_cost_zero : Action.mana_cost (.heal 0) = 3 := by
  simp only [Action.mana_cost]
  rw [Real.zero_rpow (by norm_num), Real.rpow_zero]
  have h : (3 : ℝ) * 1 = ((3 : ℤ) : ℝ) := by norm_num
  rw [h, pyRound_intCast]

theorem pointwise_set {α : Type} {P : α → Prop} {l : List α} {x : α} {n : ℕ}
    (hl : ∀ a ∈ l, P a) (hx : P x) : ∀ a ∈ l.set n x, P a := by
  intro a ha
  rcases List.mem_or_eq_of_mem_set ha with h | h
  · exact hl a h
  · exact h ▸ hx

theorem mem_of_getElem?_some {α : Type} {l : List α} {n : ℕ} {a : α}
    (h : l[n]? = some a) : a ∈ l := by
  rcases List.getElem?_eq_some.mp h with ⟨hlt, rfl⟩
  exact List.getElem_mem hlt

theorem decay_pointwise {P : PlayerState → Prop}
    (hdecay : ∀ (s : PlayerState) (g : EffectGroup), P s →
      P { s with active_effects := GameState.decrementEffectsList g s.active_effects })
    {gs : GameState} (i : ℕ) (hP : ∀ s ∈ gs.player_states, P s) :
    ∀ s' ∈ (gs.decay_effects i).player_states, P s' := by
  unfold GameState.decay_effects
  cases hA : gs.player_states[i]? with
  | none => simpa using hP
  | some actor =>
      cases hD : gs.player_states[1 - i]? with
      | none => simpa using hP
      | some defender =>
          simp only [GameState.setPlayerState]
          refine pointwise_set (pointwise_set hP ?_) ?_
          · exact hdecay actor .BUFFS_AND_DEBUFFS (hP actor (mem_of_getElem?_some hA))
          · exact hdecay defender .DEFENSES (hP defender (mem_of_getElem?_some hD))

theorem log_players (gs : GameState) (r : ActionRecord) :
    (gs.log_action r).player_states = gs.player_states := rfl

theorem perform_ok_pointwise (P : PlayerState → Prop)
    (hmana : ∀ (s : PlayerState) (c : ℤ), P s →
      P { s with current_mana := max 0 (s.current_mana - c) })
    (hheal : ∀ (s : PlayerState) (n : ℤ), 0 ≤ n → P s →
      P (GameState.apply_heal s n).1)
    (hdmg : ∀ (s : PlayerState) (d : ℤ), 0 ≤ d → P s →
      P (GameState.apply_damage s d))
    (hstatus : ∀ (s : PlayerState) (e : StatusEffect), P s →
      P { s with active_effects := GameState.applyStatusList s.active_effects e })
    (hdecay : ∀ (s : PlayerState) (g : EffectGroup), P s →
      P { s with active_effects := GameState.decrementEffectsList g s.active_effects })
    {gs : GameState} {i : ℕ} {a : Action} {roll u : ℝ} {gs' : GameState}
    {out : TurnOutcome}
    (hok : gs.perform_action i a roll u = .ok (gs', out))
    (hP : ∀ s ∈ gs.player_states, P s) :
    ∀ s' ∈ gs'.player_states, P s' := by
  by_cases hidx : i ≠ 0 ∧ i ≠ 1
  · simp only [GameState.perform_action, if_pos hidx] at hok
    exact Except.noConfusion hok
  · cases hA : gs.player_states[i]? with
    | none =>
        cases hD : gs.player_states[1 - i]? <;>
          simp only [GameState.perform_action, if_neg hidx, hA, hD] at hok <;>
          exact Except.noConfusion hok
    | some actor =>
    cases hD : gs.player_states[1 - i]? with
    | none =>
        simp only [GameState.perform_action, if_neg hidx, hA, hD] at hok
        exact Except.noConfusion hok
    | some defender =>
    by_cases hcost : a.mana_cost > actor.current_mana
    · simp only [GameState.perform_action, if_neg hidx, hA, hD,
        if_pos hcost] at hok
      exact Except.noConfusion hok
    · simp only [GameState.perform_action, if_neg hidx, hA, hD,
        if_neg hcost] at hok
      have hPactor : P actor := hP actor (mem_of_getElem?_some hA)
      have hPdef : P defender := hP defender (mem_of_getElem?_some hD)
      have hPactor1 : P { actor with
          current_mana := max 0 (actor.current_mana - a.mana_cost) } :=
        hmana actor a.mana_cost hPactor
      cases a with
      | heal st =>
          by_cases hroll : roll ≤ (Action.heal st).accuracy
          · simp only [Action.perform_action, if_pos hroll,
              Action.perform_action_subclass, Bool.true_eq_false, if_false,
              Except.ok.injEq, Prod.mk.injEq] at hok
            obtain ⟨hgs, -⟩ := hok
            subst hgs
            refine decay_pointwise hdecay i ?_
            rw [log_players]
            simp only [GameState.setPlayerState]
            exact pointwise_set (pointwise_set hP hPactor1)
              (hheal _ _ (le_max_left 0 _) hPactor1)
          · simp only [Action.perform_action, if_neg hroll,
              eq_self_iff_true, if_true, Except.ok.injEq,
              Prod.mk.injEq] at hok
            obtain ⟨hgs, -⟩ := hok
            subst hgs
            refine decay_pointwise hdecay i ?_
            rw [log_players]
            exact hP
      | defend el =>
          by_cases hroll : roll ≤ (Action.defend el).accuracy
          · simp only [Action.perform_action, if_pos hroll,
              Action.perform_action_subclass, Action.element?,
              Bool.true_eq_false, if_false, Except.ok.injEq,
              Prod.mk.injEq] at hok
            obtain ⟨hgs, -⟩ := hok
            subst hgs
            refine decay_pointwise hdecay i ?_
            rw [log_players]
            simp only [GameState.setPlayerState]
            exact pointwise_set (pointwise_set hP hPactor1)
              (hstatus _ _ hPactor1)
          · simp only [Action.perform_action, if_neg hroll,
              eq_self_iff_true, if_true, Except.ok.injEq,
              Prod.mk.injEq] at hok
            obtain ⟨hgs, -⟩ := hok
            subst hgs
            refine decay_pointwise hdecay i ?_
            rw [log_players]
            exact hP
      | castSpell sp =>
          obtain ⟨nm, st, desc, el, strg⟩ := sp
          by_cases hroll : roll ≤ (Action.castSpell ⟨nm, st, desc, el, strg⟩).accuracy
          · cases st <;>
              simp only [Action.perform_action, if_pos hroll,
                Action.perform_action_subclass, Spell.perform_action_subclass,
                Action.action_target, Action.name?, Bool.true_eq_false,
                if_false, Except.ok.injEq, Prod.mk.injEq] at hok <;>
              obtain ⟨hgs, -⟩ := hok <;>
              subst hgs <;>
              refine decay_pointwise hdecay i ?_ <;>
              rw [log_players] <;>
              simp only [GameState.setPlayerState]
            · -- DAMAGE: defender takes `apply_damage`, actor pays mana
              exact pointwise_set (pointwise_set hP hPactor1)
                (hdmg _ _ (le_max_left 0 _) hPdef)
            · -- BUFF: actor gains a status effect
              exact pointwise_set (pointwise_set hP hPactor1)
                (hstatus _ _ hPactor1)
            · -- DEBUFF: defender gains a status effect
              exact pointwise_set (pointwise_set hP hPactor1)
                (hstatus _ _ hPdef)
          · simp only [Action.perform_action, if_neg hroll,
              eq_self_iff_true, if_true, Except.ok.injEq,
              Prod.mk.injEq] at hok
            obtain ⟨hgs, -⟩ := hok
            subst hgs
            refine decay_pointwise hdecay i ?_
            rw [log_players]
            exact hP

-- ===================================================================
-- Claim theorems
-- ===================================================================

/-- C1: for every resolution `perform_action(actor_index, action)` whose
mana precondition holds, starting from a state where both players have
`0 ≤ current_health ≤ max_health` and `0 ≤ current_mana`, every outcome
(heal, damage, buff, debuff, defend, or accuracy failure, at any action
magnitude, i.e. any strength/roll/variance sample) leaves both players with
HP in `[0, max_health]` and nonnegative mana. -/
theorem C1_resolution_invariants (gs : GameState) (i : ℕ) (a : Action)
    (roll u : ℝ) (hwf : WF gs)
    (hpre : ∀ s, gs.player_states[i]? = some s → a.mana_cost ≤ s.current_mana) :
    ∀ gs' out, gs.perform_action i a roll u = .ok (gs', out) → WF gs' := by
  intro gs' out hok
  refine perform_ok_pointwise GoodState ?_ ?_ ?_ ?_ ?_ hok hwf
  · intro s c hs
    exact ⟨hs.1, hs.2.1, le_max_left 0 _⟩
  · intro s n hn hs
    obtain ⟨h0, h1, h2⟩ := hs
    simp only [GameState.apply_heal, GoodState]
    refine ⟨?_, ?_, h2⟩ <;> omega
  · intro s d hd hs
    obtain ⟨h0, h1, h2⟩ := hs
    simp only [GameState.apply_damage, GoodState]
    refine ⟨?_, ?_, h2⟩ <;> omega
  · intro s e hs
    exact hs
  · intro s g hs
    exact hs

/-- Witness for C1 at a concrete state and a Defend action. -/
theorem C1_witness :
    WF (testGS 50 5 60 7) ∧
    (∀ s, (testGS 50 5 60 7).player_states[0]? = some s →
      Action.mana_cost (.defend .FIRE) ≤ s.current_mana) ∧
    (∀ gs' out,
      (testGS 50 5 60 7).perform_action 0 (.defend .FIRE) (1/2) (1/2) =
        .ok (gs', out) → WF gs') := by
  have h1 : WF (testGS 50 5 60 7) := by
    intro s hs
    simp only [testGS, testState, List.mem_cons, List.not_mem_nil,
      or_false] at hs
    rcases hs with rfl | rfl <;> exact ⟨by norm_num, by norm_num, by norm_num⟩
  have h2 : ∀ s, (testGS 50 5 60 7).player_states[0]? = some s →
      Action.mana_cost (.defend .FIRE) ≤ s.current_mana := by
    intro s hs
    have : testState 0 testWizard 50 5 = s := by
      simpa [testGS] using hs
    subst this
    simp [Action.mana_cost, testState]
  exact ⟨h1, h2, C1_resolution_invariants _ 0 _ (1/2) (1/2) h1 h2⟩

/-- C5: if the action's mana cost exceeds the acting player's current mana,
`perform_action` raises (`ValueError("Not enough mana to perform action")`),
before any mutation: no successor state is produced at all, so HP, mana,
effects and the action log are untouched (the raise precedes every
assignment in the source). -/
theorem C5_insufficient_mana_raises (gs : GameState) (i : ℕ) (a : Action)
    (roll u : ℝ) (sa sd : PlayerState) (hi : i = 0 ∨ i = 1)
    (ha : gs.player_states[i]? = some sa)
    (hd : gs.player_states[1 - i]? = some sd)
    (hlow : sa.current_mana < a.mana_cost) :
    gs.perform_action i a roll u = .error "Not enough mana to perform action" := by
  have hidx : ¬(i ≠ 0 ∧ i ≠ 1) := by rcases hi with rfl | rfl <;> simp
  simp only [GameState.perform_action, if_neg hidx, ha, hd, if_pos hlow]

/-- Witness for C5: zero mana against the Heal action (cost 3). -/
theorem C5_witness :
    ((0 : ℕ) = 0 ∨ (0 : ℕ) = 1) ∧
    (testGS 50 0 60 0).player_states[0]? = some (testState 0 testWizard 50 0) ∧
    (testGS 50 0 60 0).player_states[1 - 0]? = some (testState 1 testWizard2 60 0) ∧
    (testState 0 testWizard 50 0).current_mana < Action.mana_cost (.heal 0) ∧
    (testGS 50 0 60 0).perform_action 0 (.heal 0) (1/2) (1/2) =
      .error "Not enough mana to perform action" := by
  have h1 : (0 : ℕ) = 0 ∨ (0 : ℕ) = 1 := Or.inl rfl
  have h2 : (testGS 50 0 60 0).player_states[0]? =
      some (testState 0 testWizard 50 0) := rfl
  have h3 : (testGS 50 0 60 0).player_states[1 - 0]? =
      some (testState 1 testWizard2 60 0) := rfl
  have h4 : (testState 0 testWizard 50 0).current_mana <
      Action.mana_cost (.heal 0) := by
    show (0 : ℤ) < Action.mana_cost (.heal 0)
    rw [heal_cost_zero]
    norm_num
  exact ⟨h1, h2, h3, h4,
    C5_insufficient_mana_raises _ 0 _ (1/2) (1/2) _ _ h1 h2 h3 h4⟩

/-- C10: when both players' HP are simultaneously `≤ 0`, `get_winner`
checks player 0's HP first and therefore returns player 1's wizard —
never `None` and never player 0's wizard's slot. -/
theorem C10_double_ko_tiebreak (gs : GameState) (s0 s1 : PlayerState)
    (h0 : gs.player_states[0]? = some s0)
    (h1 : gs.player_states[1]? = some s1)
    (hh0 : s0.current_health ≤ 0) (hh1 : s1.current_health ≤ 0) :
    gs.get_winner = some s1.player.wizard := by
  simp only [GameState.get_winner, h0, h1, if_pos hh0]

/-- Witness for C10 at a concrete double-KO state. -/
theorem C10_witness :
    (testGS (-1) 5 (-3) 5).player_states[0]? =
      some (testState 0 testWizard (-1) 5) ∧
    (testGS (-1) 5 (-3) 5).player_states[1]? =
      some (testState 1 testWizard2 (-3) 5) ∧
    (testState 0 testWizard (-1) 5).current_health ≤ 0 ∧
    (testState 1 testWizard2 (-3) 5).current_health ≤ 0 ∧
    (testGS (-1) 5 (-3) 5).get_winner =
      some (testState 1 testWizard2 (-3) 5).player.wizard := by
  have h0 : (testGS (-1) 5 (-3) 5).player_states[0]? =
      some (testState 0 testWizard (-1) 5) := rfl
  have h1 : (testGS (-1) 5 (-3) 5).player_states[1]? =
      some (testState 1 testWizard2 (-3) 5) := rfl
  have hh0 : (testState 0 testWizard (-1) 5).current_health ≤ 0 := by decide
  have hh1 : (testState 1 testWizard2 (-3) 5).current_health ≤ 0 := by decide
  exact ⟨h0, h1, hh0, hh1, C10_double_ko_tiebreak _ _ _ h0 h1 hh0 hh1⟩

theorem decrementEffectsList_eq_specDecay (g : EffectGroup)
    (l : List StatusEffect) (hp : ∀ e ∈ l, 1 ≤ e.remaining_turns) :
    GameState.decrementEffectsList g l = specDecay g l := by
  induction l with
  | nil => rfl
  | cons e rest ih =>
      have he : 1 ≤ e.remaining_turns := hp e (List.mem_cons_self e rest)
      have hrest : ∀ x ∈ rest, 1 ≤ x.remaining_turns :=
        fun x hx => hp x (List.mem_cons_of_mem e hx)
      have ih' := ih hrest
      simp only [GameState.decrementEffectsList, specDecay, List.map_cons,
        List.filter_cons] at ih' ⊢
      by_cases hg : g.includes e = true
      · have hmax : max 0 (e.remaining_turns - 1) = e.remaining_turns - 1 := by
          omega
        simp only [hg, if_true, hmax, ih']
        by_cases hz : 0 < e.remaining_turns - 1
        · simp only [decide_eq_true hz, if_true]
          rw [if_pos hz]
        · simp only [decide_eq_false hz, Bool.false_eq_true, if_false]
          rw [if_neg hz]
      · simp only [hg, Bool.false_eq_true, if_false, ih']
        have hz : 0 < e.remaining_turns := by omega
        simp only [decide_eq_true hz, if_true]
        rw [if_pos hz]

theorem specDecay_keeps_nongroup (g : EffectGroup) (l : List StatusEffect)
    (hp : ∀ e ∈ l, 1 ≤ e.remaining_turns) :
    (specDecay g l).filter (fun e => !(g.includes e)) =
      l.filter (fun e => !(g.includes e)) := by
  induction l with
  | nil => rfl
  | cons e rest ih =>
      have he : 1 ≤ e.remaining_turns := hp e (List.mem_cons_self e rest)
      have hrest : ∀ x ∈ rest, 1 ≤ x.remaining_turns :=
        fun x hx => hp x (List.mem_cons_of_mem e hx)
      have ih' := ih hrest
      simp only [specDecay, List.map_cons, List.filter_cons] at ih' ⊢
      by_cases hg : g.includes e = true
      · simp only [hg, if_true]
        by_cases hz : 0 < e.remaining_turns - 1
        · simp only [decide_eq_true hz, if_true, List.filter_cons]
          have hg' : (g.includes
              { e with remaining_turns := e.remaining_turns - 1 }) = true := by
            cases g <;> simpa [EffectGroup.includes, StatusEffect.is_buff,
              StatusEffect.is_debuff, StatusEffect.is_defense] using hg
          simp only [hg', Bool.not_true, Bool.false_eq_true, if_false, ih',
            Bool.not_eq_true]
        · simp only [decide_eq_false hz, Bool.false_eq_true, if_false, ih',
            hg, Bool.not_true]
      · have hgb : g.includes e = false := by
          revert hg
          cases g.includes e <;> simp
        simp only [hgb, Bool.false_eq_true, if_false]
        have hz : 0 < e.remaining_turns := by omega
        simp only [decide_eq_true hz, if_true, List.filter_cons, hgb,
          Bool.not_false, if_true, ih']

/-- C2: the post-resolution decay step (`_decay_effects`, invoked by
`perform_action` on both the success and the accuracy-failure path) does
exactly this: every BUFF/DEBUFF on the actor and every DEFENSE on the
defender is decremented by 1 with effects reaching 0 removed (`specDecay`),
and no other effect is decremented or removed — the actor's DEFENSEs and
the defender's BUFFs/DEBUFFs survive verbatim. -/
theorem C2_decay_exact (gs : GameState) (i : ℕ) (sa sd : PlayerState)
    (hi : i = 0 ∨ i = 1)
    (ha : gs.player_states[i]? = some sa)
    (hd : gs.player_states[1 - i]? = some sd)
    (hpa : ∀ e ∈ sa.active_effects, 1 ≤ e.remaining_turns)
    (hpd : ∀ e ∈ sd.active_effects, 1 ≤ e.remaining_turns) :
    (gs.decay_effects i).player_states[i]? =
      some { sa with active_effects := specDecay .BUFFS_AND_DEBUFFS sa.active_effects } ∧
    (gs.decay_effects i).player_states[1 - i]? =
      some { sd with active_effects := specDecay .DEFENSES sd.active_effects } ∧
    (specDecay .BUFFS_AND_DEBUFFS sa.active_effects).filter
        (fun e => !(EffectGroup.BUFFS_AND_DEBUFFS.includes e)) =
      sa.active_effects.filter
        (fun e => !(EffectGroup.BUFFS_AND_DEBUFFS.includes e)) ∧
    (specDecay .DEFENSES sd.active_effects).filter
        (fun e => !(EffectGroup.DEFENSES.includes e)) =
      sd.active_effects.filter (fun e => !(EffectGroup.DEFENSES.includes e)) := by
  have hne : i ≠ 1 - i := by rcases hi with rfl | rfl <;> decide
  obtain ⟨hlt, -⟩ := List.getElem?_eq_some.mp ha
  obtain ⟨hlt', -⟩ := List.getElem?_eq_some.mp hd
  refine ⟨?_, ?_, specDecay_keeps_nongroup _ _ hpa,
    specDecay_keeps_nongroup _ _ hpd⟩
  · simp only [GameState.decay_effects, ha, hd, GameState.setPlayerState]
    rw [List.getElem?_set_ne (Ne.symm hne), List.getElem?_set_self hlt,
      decrementEffectsList_eq_specDecay _ _ hpa]
  · simp only [GameState.decay_effects, ha, hd, GameState.setPlayerState]
    rw [List.getElem?_set_self (by simpa using hlt'),
      decrementEffectsList_eq_specDecay _ _ hpd]

/-- Witness for C2 at a concrete state with one buff and one shield. -/
theorem C2_witness :
    ((0 : ℕ) = 0 ∨ (0 : ℕ) = 1) ∧
    ((testGS 50 5 60 7 [⟨"B", .BUFF, 0.2, 2⟩] [⟨"FIRE", .DEFENSE, 0, 1⟩]).player_states[0]? = some (testState 0 testWizard 50 5 [⟨"B", .BUFF, 0.2, 2⟩])) ∧
    (∀ e ∈ (testState 0 testWizard 50 5 [(⟨"B", .BUFF, 0.2, 2⟩ : StatusEffect)]).active_effects, 1 ≤ e.remaining_turns) ∧
    (((testGS 50 5 60 7 [⟨"B", .BUFF, 0.2, 2⟩] [⟨"FIRE", .DEFENSE, 0, 1⟩]).decay_effects 0).player_states[0]? = some { testState 0 testWizard 50 5 [⟨"B", .BUFF, 0.2, 2⟩] with active_effects := specDecay .BUFFS_AND_DEBUFFS [⟨"B", .BUFF, 0.2, 2⟩] }) := by
  have h1 : (0 : ℕ) = 0 ∨ (0 : ℕ) = 1 := Or.inl rfl
  have ha : (testGS 50 5 60 7 [⟨"B", .BUFF, 0.2, 2⟩] [⟨"FIRE", .DEFENSE, 0, 1⟩]).player_states[0]? = some (testState 0 testWizard 50 5 [⟨"B", .BUFF, 0.2, 2⟩]) := rfl
  have hd : (testGS 50 5 60 7 [⟨"B", .BUFF, 0.2, 2⟩] [⟨"FIRE", .DEFENSE, 0, 1⟩]).player_states[1 - 0]? = some (testState 1 testWizard2 60 7 [⟨"FIRE", .DEFENSE, 0, 1⟩]) := rfl
  have hpa : ∀ e ∈ (testState 0 testWizard 50 5 [(⟨"B", .BUFF, 0.2, 2⟩ : StatusEffect)]).active_effects, 1 ≤ e.remaining_turns := by
    intro e he
    simp only [testState, List.mem_singleton] at he
    subst he
    decide
  have hpd : ∀ e ∈ (testState 1 testWizard2 60 7 [(⟨"FIRE", .DEFENSE, 0, 1⟩ : StatusEffect)]).active_effects, 1 ≤ e.remaining_turns := by
    intro e he
    simp only [testState, List.mem_singleton] at he
    subst he
    decide
  exact ⟨h1, ha, hpa, (C2_decay_exact _ 0 _ _ h1 ha hd hpa hpd).1⟩

theorem applyStatusList_names_of_mem (l : List StatusEffect) (e : StatusEffect)
    (h : e.name ∈ l.map StatusEffect.name) :
    (GameState.applyStatusList l e).map StatusEffect.name =
      l.map StatusEffect.name := by
  induction l with
  | nil => simp at h
  | cons a rest ih =>
      by_cases hbeq : (a.name == e.name) = true
      · simp only [GameState.applyStatusList, hbeq, if_true, List.map_cons]
      · simp only [GameState.applyStatusList, hbeq, Bool.false_eq_true,
          if_false, List.map_cons]
        have hne : a.name ≠ e.name := fun hcon => hbeq (by simp [hcon])
        have h' : e.name ∈ rest.map StatusEffect.name := by
          simp only [List.map_cons, List.mem_cons] at h
          rcases h with h | h
          · exact absurd h.symm hne
          · exact h
        rw [ih h']

theorem applyStatusList_names_of_not_mem (l : List StatusEffect)
    (e : StatusEffect) (h : e.name ∉ l.map StatusEffect.name) :
    (GameState.applyStatusList l e).map StatusEffect.name =
      l.map StatusEffect.name ++ [e.name] := by
  induction l with
  | nil => rfl
  | cons a rest ih =>
      simp only [List.map_cons, List.mem_cons, not_or] at h
      obtain ⟨hne, h'⟩ := h
      have hbeq : (a.name == e.name) = false := by
        simpa using fun hcon => hne hcon.symm
      simp only [GameState.applyStatusList, hbeq, Bool.false_eq_true, if_false,
        List.map_cons, ih h', List.cons_append]

theorem addStatusEffectList_names_of_mem (l : List StatusEffect)
    (e : StatusEffect) (h : e.name ∈ l.map StatusEffect.name) :
    (GameState.addStatusEffectList l e).map StatusEffect.name =
      l.map StatusEffect.name := by
  induction l with
  | nil => simp at h
  | cons a rest ih =>
      by_cases hbeq : (a.name == e.name) = true
      · simp only [GameState.addStatusEffectList, hbeq, if_true, List.map_cons]
      · simp only [GameState.addStatusEffectList, hbeq, Bool.false_eq_true,
          if_false, List.map_cons]
        have hne : a.name ≠ e.name := fun hcon => hbeq (by simp [hcon])
        have h' : e.name ∈ rest.map StatusEffect.name := by
          simp only [List.map_cons, List.mem_cons] at h
          rcases h with h | h
          · exact absurd h.symm hne
          · exact h
        rw [ih h']

theorem addStatusEffectList_names_of_not_mem (l : List StatusEffect)
    (e : StatusEffect) (h : e.name ∉ l.map StatusEffect.name) :
    (GameState.addStatusEffectList l e).map StatusEffect.name =
      l.map StatusEffect.name ++ [e.name] := by
  induction l with
  | nil => rfl
  | cons a rest ih =>
      simp only [List.map_cons, List.mem_cons, not_or] at h
      obtain ⟨hne, h'⟩ := h
      have hbeq : (a.name == e.name) = false := by
        simpa using fun hcon => hne hcon.symm
      simp only [GameState.addStatusEffectList, hbeq, Bool.false_eq_true,
        if_false, List.map_cons, ih h', List.cons_append]

theorem uniqueNames_applyStatusList (l : List StatusEffect) (e : StatusEffect)
    (h : uniqueNames l) : uniqueNames (GameState.applyStatusList l e) := by
  by_cases hm : e.name ∈ l.map StatusEffect.name
  · rw [uniqueNames, applyStatusList_names_of_mem l e hm]
    exact h
  · rw [uniqueNames, applyStatusList_names_of_not_mem l e hm]
    exact List.Nodup.append h (List.nodup_singleton _) (by simpa using hm)

theorem uniqueNames_addStatusEffectList (l : List StatusEffect)
    (e : StatusEffect) (h : uniqueNames l) :
    uniqueNames (GameState.addStatusEffectList l e) := by
  by_cases hm : e.name ∈ l.map StatusEffect.name
  · rw [uniqueNames, addStatusEffectList_names_of_mem l e hm]
    exact h
  · rw [uniqueNames, addStatusEffectList_names_of_not_mem l e hm]
    exact List.Nodup.append h (List.nodup_singleton _) (by simpa using hm)

theorem decrement_names_sublist (g : EffectGroup) (l : List StatusEffect) :
    ((GameState.decrementEffectsList g l).map StatusEffect.name).Sublist
      (l.map StatusEffect.name) := by
  induction l with
  | nil => exact List.Sublist.refl _
  | cons e rest ih =>
      simp only [GameState.decrementEffectsList]
      by_cases hg : g.includes e = true
      · simp only [hg, if_true]
        by_cases hz : 0 < e.remaining_turns - 1
        · rw [if_pos (by simpa using hz)]
          simpa using List.Sublist.cons₂ e.name ih
        · rw [if_neg (by simpa using hz)]
          simpa using List.Sublist.cons e.name ih
      · simp only [hg, Bool.false_eq_true, if_false]
        by_cases hz : 0 < e.remaining_turns
        · rw [if_pos hz]
          simpa using List.Sublist.cons₂ e.name ih
        · rw [if_neg hz]
          simpa using List.Sublist.cons e.name ih

theorem uniqueNames_decrement (g : EffectGroup) (l : List StatusEffect)
    (h : uniqueNames l) : uniqueNames (GameState.decrementEffectsList g l) :=
  List.Nodup.sublist (decrement_names_sublist g l) h

theorem reachable_uniqueNames (gs : GameState) (h : Reachable gs) :
    ∀ s ∈ gs.player_states, uniqueNames s.active_effects := by
  induction h with
  | init w1 w2 swap uh1 um1 uh2 um2 =>
      intro s hs
      simp only [GameState.initMatch, List.mem_cons, List.not_mem_nil,
        or_false] at hs
      rcases hs with rfl | rfl <;> exact List.nodup_nil
  | perform gs gs' i a roll u out hr hok ih =>
      refine perform_ok_pointwise (fun s => uniqueNames s.active_effects)
        ?_ ?_ ?_ ?_ ?_ hok ih
      · intro s c hs; exact hs
      · intro s n hn hs; exact hs
      · intro s d hd hs; exact hs
      · intro s e hs; exact uniqueNames_applyStatusList _ _ hs
      · intro s g hs; exact uniqueNames_decrement g _ hs
  | mana gs hr ih =>
      intro s hs
      simp only [GameState.increment_mana, List.mem_map] at hs
      obtain ⟨t, ht, rfl⟩ := hs
      exact ih t ht

theorem applyStatusList_refresh (l : List StatusEffect) (e : StatusEffect)
    (hu : uniqueNames l) (x : StatusEffect) (hx : x ∈ l)
    (hname : x.name = e.name) :
    GameState.applyStatusList l e =
      l.map (fun y => if y.name == e.name then
        { y with remaining_turns := e.remaining_turns, value := e.value }
        else y) := by
  induction l with
  | nil => simp at hx
  | cons a rest ih =>
      rw [uniqueNames, List.map_cons, List.nodup_cons] at hu
      obtain ⟨hnotin, hurest⟩ := hu
      by_cases hbeq : (a.name == e.name) = true
      · simp only [GameState.applyStatusList, hbeq, if_true, List.map_cons]
        have haname : a.name = e.name := by simpa using hbeq
        have hrest_id : ∀ y ∈ rest, (if (y.name == e.name) = true then
            { y with remaining_turns := e.remaining_turns, value := e.value }
            else y) = y := by
          intro y hy
          have : y.name ≠ e.name := by
            intro hcon
            exact hnotin (haname ▸ hcon ▸ List.mem_map_of_mem StatusEffect.name hy)
          rw [if_neg (by simpa using this)]
        rw [List.map_congr_left hrest_id]
        simp
      · simp only [GameState.applyStatusList, hbeq, Bool.false_eq_true,
          if_false, List.map_cons]
        have hne : a.name ≠ e.name := fun hcon => hbeq (by simp [hcon])
        have hx' : x ∈ rest := by
          rcases List.mem_cons.mp hx with rfl | hx'
          · exact absurd hname hne
          · exact hx'
        rw [ih hurest hx']

theorem addStatusEffectList_refresh (l : List StatusEffect) (e : StatusEffect)
    (hu : uniqueNames l) (x : StatusEffect) (hx : x ∈ l)
    (hname : x.name = e.name) :
    GameState.addStatusEffectList l e =
      l.map (fun y => if y.name == e.name then
        { y with remaining_turns := e.remaining_turns } else y) := by
  induction l with
  | nil => simp at hx
  | cons a rest ih =>
      rw [uniqueNames, List.map_cons, List.nodup_cons] at hu
      obtain ⟨hnotin, hurest⟩ := hu
      by_cases hbeq : (a.name == e.name) = true
      · simp only [GameState.addStatusEffectList, hbeq, if_true, List.map_cons]
        have haname : a.name = e.name := by simpa using hbeq
        have hrest_id : ∀ y ∈ rest, (if (y.name == e.name) = true then
            { y with remaining_turns := e.remaining_turns } else y) = y := by
          intro y hy
          have : y.name ≠ e.name := by
            intro hcon
            exact hnotin (haname ▸ hcon ▸ List.mem_map_of_mem StatusEffect.name hy)
          rw [if_neg (by simpa using this)]
        rw [List.map_congr_left hrest_id]
        simp
      · simp only [GameState.addStatusEffectList, hbeq, Bool.false_eq_true,
          if_false, List.map_cons]
        have hne : a.name ≠ e.name := fun hcon => hbeq (by simp [hcon])
        have hx' : x ∈ rest := by
          rcases List.mem_cons.mp hx with rfl | hx'
          · exact absurd hname hne
          · exact hx'
        rw [ih hurest hx']

theorem applyStatusList_of_not_mem (l : List StatusEffect) (e : StatusEffect)
    (h : e.name ∉ l.map StatusEffect.name) :
    GameState.applyStatusList l e = l ++ [e] := by
  induction l with
  | nil => rfl
  | cons a rest ih =>
      simp only [List.map_cons, List.mem_cons, not_or] at h
      obtain ⟨hne, h'⟩ := h
      have hbeq : (a.name == e.name) = false := by
        simpa using fun hcon => hne hcon.symm
      simp only [GameState.applyStatusList, hbeq, Bool.false_eq_true, if_false,
        ih h', List.cons_append]

theorem addStatusEffectList_of_not_mem (l : List StatusEffect)
    (e : StatusEffect) (h : e.name ∉ l.map StatusEffect.name) :
    GameState.addStatusEffectList l e = l ++ [e] := by
  induction l with
  | nil => rfl
  | cons a rest ih =>
      simp only [List.map_cons, List.mem_cons, not_or] at h
      obtain ⟨hne, h'⟩ := h
      have hbeq : (a.name == e.name) = false := by
        simpa using fun hcon => hne hcon.symm
      simp only [GameState.addStatusEffectList, hbeq, Bool.false_eq_true,
        if_false, ih h', List.cons_append]

/-- C3 (amended): every match state reachable through the game loop keeps at
most one active effect per distinct name on each combatant, and applying a
same-named effect again refreshes in place instead of stacking — but the two
adding operations differ: `_apply_status` (the one `perform_action` uses)
overwrites remaining-turns AND magnitude, while the public helper
`add_status_effect` overwrites ONLY remaining-turns and leaves the existing
magnitude untouched; a fresh name appends a new entry in both. -/
theorem C3_unique_effects_and_refresh (gs : GameState) (hreach : Reachable gs) :
    (∀ s ∈ gs.player_states, uniqueNames s.active_effects) ∧
    (∀ (l : List StatusEffect) (e : StatusEffect), uniqueNames l →
      uniqueNames (GameState.applyStatusList l e) ∧
      uniqueNames (GameState.addStatusEffectList l e)) ∧
    (∀ (l : List StatusEffect) (e x : StatusEffect), uniqueNames l → x ∈ l →
      x.name = e.name →
      GameState.applyStatusList l e =
        l.map (fun y => if y.name == e.name then
          { y with remaining_turns := e.remaining_turns, value := e.value }
          else y) ∧
      GameState.addStatusEffectList l e =
        l.map (fun y => if y.name == e.name then
          { y with remaining_turns := e.remaining_turns } else y)) ∧
    (∀ (l : List StatusEffect) (e : StatusEffect),
      e.name ∉ l.map StatusEffect.name →
      GameState.applyStatusList l e = l ++ [e] ∧
      GameState.addStatusEffectList l e = l ++ [e]) := by
  refine ⟨reachable_uniqueNames gs hreach, ?_, ?_, ?_⟩
  · intro l e hu
    exact ⟨uniqueNames_applyStatusList l e hu, uniqueNames_addStatusEffectList l e hu⟩
  · intro l e x hu hx hname
    exact ⟨applyStatusList_refresh l e hu x hx hname,
      addStatusEffectList_refresh l e hu x hx hname⟩
  · intro l e h
    exact ⟨applyStatusList_of_not_mem l e h, addStatusEffectList_of_not_mem l e h⟩

/-- Counterexample for C3 as frozen: `add_status_effect` — one of the
operations that add a status effect — does NOT overwrite the magnitude.
Refreshing the value-1 effect "X" with a same-named value-2 effect leaves
the stored value at 1 (only remaining-turns becomes 5), while the claim
predicts value 2. -/
theorem C3_counterexample :
    (c3gs.add_status_effect ⟨0, testWizard⟩ c3effNew).player_states =
      [{ testState 0 testWizard 50 5 [c3effOld] with
          active_effects := [⟨"X", .BUFF, 1, 5⟩] }] ∧
    c3effNew.value = 2 ∧ (1 : ℝ) ≠ 2 := by
  refine ⟨?_, rfl, by norm_num⟩
  rfl

/-- Witness for C3 at a freshly initialized match. -/
theorem C3_witness :
    Reachable (GameState.initMatch testWizard testWizard2 false 1 1 1 1) ∧
    (∀ s ∈ (GameState.initMatch testWizard testWizard2 false 1 1 1 1).player_states,
      uniqueNames s.active_effects) := by
  have h : Reachable (GameState.initMatch testWizard testWizard2 false 1 1 1 1) :=
    Reachable.init testWizard testWizard2 false 1 1 1 1
  exact ⟨h, (C3_unique_effects_and_refresh _ h).1⟩

theorem decay_effects_action_log (gs : GameState) (i : ℕ) :
    (gs.decay_effects i).action_log = gs.action_log := by
  cases hA : gs.player_states[i]? <;> cases hD : gs.player_states[1 - i]? <;>
    simp [GameState.decay_effects, hA, hD, GameState.setPlayerState]

theorem decay_effects_getElem (gs : GameState) (i : ℕ) (hi : i = 0 ∨ i = 1)
    (sa sd : PlayerState)
    (ha : gs.player_states[i]? = some sa)
    (hd : gs.player_states[1 - i]? = some sd) :
    (gs.decay_effects i).player_states[i]? =
      some { sa with active_effects := GameState.decrementEffectsList .BUFFS_AND_DEBUFFS sa.active_effects } ∧
    (gs.decay_effects i).player_states[1 - i]? =
      some { sd with active_effects := GameState.decrementEffectsList .DEFENSES sd.active_effects } := by
  have hne : i ≠ 1 - i := by rcases hi with rfl | rfl <;> decide
  obtain ⟨hlt, -⟩ := List.getElem?_eq_some.mp ha
  obtain ⟨hlt', -⟩ := List.getElem?_eq_some.mp hd
  constructor
  · simp only [GameState.decay_effects, ha, hd, GameState.setPlayerState]
    rw [List.getElem?_set_ne (Ne.symm hne), List.getElem?_set_self hlt]
  · simp only [GameState.decay_effects, ha, hd, GameState.setPlayerState]
    rw [List.getElem?_set_self (by simpa using hlt')]

/-- C6: when the accuracy roll fails (and the mana precondition held),
`perform_action` returns the failure announcement, and the only state
changes are one appended "Failed :(" log record and the effect-countdown
decay: both players keep their HP and mana (in particular no mana is
deducted) and no status effect is added — the effect lists afterwards are
exactly the decayed originals. -/
theorem C6_accuracy_failure_frame (gs : GameState) (i : ℕ) (a : Action)
    (roll u : ℝ) (sa sd : PlayerState) (hi : i = 0 ∨ i = 1)
    (ha : gs.player_states[i]? = some sa)
    (hd : gs.player_states[1 - i]? = some sd)
    (hm : ¬ a.mana_cost > sa.current_mana)
    (hroll : ¬ roll ≤ a.accuracy) :
    ∃ gs', gs.perform_action i a roll u =
        .ok (gs', .failure (a.failure_announcement sa.player.wizard.name)) ∧
      gs'.action_log = gs.action_log ++
        [⟨i, a.action_type, a.action_target, "Failed :("⟩] ∧
      gs'.player_states[i]? =
        some { sa with active_effects := GameState.decrementEffectsList .BUFFS_AND_DEBUFFS sa.active_effects } ∧
      gs'.player_states[1 - i]? =
        some { sd with active_effects := GameState.decrementEffectsList .DEFENSES sd.active_effects } := by
  have hidx : ¬(i ≠ 0 ∧ i ≠ 1) := by rcases hi with rfl | rfl <;> simp
  refine ⟨(gs.log_action
      ⟨i, a.action_type, a.action_target, "Failed :("⟩).decay_effects i,
    ?_, ?_, ?_, ?_⟩
  · simp only [GameState.perform_action, if_neg hidx, ha, hd, if_neg hm,
      Action.perform_action, if_neg hroll, eq_self_iff_true, if_true]
  · rw [decay_effects_action_log]
    rfl
  · exact (decay_effects_getElem (gs.log_action
      ⟨i, a.action_type, a.action_target, "Failed :("⟩) i hi sa sd ha hd).1
  · exact (decay_effects_getElem (gs.log_action
      ⟨i, a.action_type, a.action_target, "Failed :("⟩) i hi sa sd ha hd).2

/-- Witness for C6: a Heal at mana 10 with a roll above its 0.95 accuracy. -/
theorem C6_witness :
    ((0 : ℕ) = 0 ∨ (0 : ℕ) = 1) ∧
    (testGS 50 10 60 7).player_states[0]? = some (testState 0 testWizard 50 10) ∧
    (testGS 50 10 60 7).player_states[1 - 0]? = some (testState 1 testWizard2 60 7) ∧
    (¬ Action.mana_cost (.heal 0) > (testState 0 testWizard 50 10).current_mana) ∧
    (¬ (0.99 : ℝ) ≤ Action.accuracy (.heal 0)) ∧
    (∃ gs', (testGS 50 10 60 7).perform_action 0 (.heal 0) 0.99 (1/2) =
        .ok (gs', .failure (Action.failure_announcement (.heal 0)
          (testState 0 testWizard 50 10).player.wizard.name)) ∧
      gs'.action_log = (testGS 50 10 60 7).action_log ++
        [⟨0, Action.action_type (.heal 0), Action.action_target (.heal 0), "Failed :("⟩] ∧
      gs'.player_states[0]? =
        some { testState 0 testWizard 50 10 with active_effects := GameState.decrementEffectsList .BUFFS_AND_DEBUFFS (testState 0 testWizard 50 10).active_effects } ∧
      gs'.player_states[1 - 0]? =
        some { testState 1 testWizard2 60 7 with active_effects := GameState.decrementEffectsList .DEFENSES (testState 1 testWizard2 60 7).active_effects }) := by
  have h1 : (0 : ℕ) = 0 ∨ (0 : ℕ) = 1 := Or.inl rfl
  have ha : (testGS 50 10 60 7).player_states[0]? =
      some (testState 0 testWizard 50 10) := rfl
  have hd : (testGS 50 10 60 7).player_states[1 - 0]? =
      some (testState 1 testWizard2 60 7) := rfl
  have hm : ¬ Action.mana_cost (.heal 0) >
      (testState 0 testWizard 50 10).current_mana := by
    show ¬ Action.mana_cost (.heal 0) > (10 : ℤ)
    rw [heal_cost_zero]
    norm_num
  have hroll : ¬ (0.99 : ℝ) ≤ Action.accuracy (.heal 0) := by
    simp only [Action.accuracy]
    norm_num
  exact ⟨h1, ha, hd, hm, hroll,
    C6_accuracy_failure_frame _ 0 _ 0.99 (1/2) _ _ h1 ha hd hm hroll⟩

theorem damageRaw_single_shield (actor defender : PlayerState)
    (shield : StatusEffect) (sp : Spell) (b : ℤ)
    (hdef : shield.effect_type = .DEFENSE)
    (hnone : ∀ e ∈ defender.active_effects, e.is_defense = false) :
    GameState.damageRaw actor
        { defender with active_effects := defender.active_effects ++ [shield] }
        sp b =
      (if sp.element.strengths.contains shield.name then (1.05 : ℝ)
       else if sp.element.weaknesses.contains shield.name then 0.5
       else 0.9) * GameState.damageRaw actor defender sp b := by
  have hbuffs : PlayerState.buffs
      { defender with active_effects := defender.active_effects ++ [shield] } =
      defender.buffs := by
    simp [PlayerState.buffs, List.filter_append, StatusEffect.is_buff, hdef]
  have hdebuffs : PlayerState.debuffs
      { defender with active_effects := defender.active_effects ++ [shield] } =
      defender.debuffs := by
    simp [PlayerState.debuffs, List.filter_append, StatusEffect.is_debuff, hdef]
  have hdefs0 : defender.defenses = [] :=
    List.filter_eq_nil_iff.mpr (by simpa using hnone)
  have hdefs1 : PlayerState.defenses
      { defender with active_effects := defender.active_effects ++ [shield] } =
      [shield] := by
    simp only [PlayerState.defenses, List.filter_append]
    rw [show List.filter (fun effect => effect.is_defense)
        defender.active_effects = [] from hdefs0]
    simp [StatusEffect.is_defense, hdef]
  simp only [GameState.damageRaw, hbuffs, hdebuffs, hdefs0, hdefs1,
    List.foldl_cons, List.foldl_nil]
  split_ifs <;> ring

/-- C4 (amended): with exactly one active DEFENSE shield on the defender
(all else equal), the shield multiplies the REAL-VALUED damage
(`damageRaw`, the value before the final `max(0, round(...))`) by exactly
0.5 when the shield's element name is in the attacking spell's weakness
list, by 1.05 when it is in the strength list, and by 0.9 otherwise; the
returned integer is `max 0 (pyRound ...)` of that product, so the two
rounded outputs need not be in the exact ratio. -/
theorem C4_shield_factor (actor defender : PlayerState)
    (shield : StatusEffect) (sp : Spell) (b : ℤ)
    (hdef : shield.effect_type = .DEFENSE)
    (hnone : ∀ e ∈ defender.active_effects, e.is_defense = false) :
    ((sp.element.strengths.contains shield.name = false ∧
      sp.element.weaknesses.contains shield.name = true) →
      GameState.damageRaw actor
          { defender with active_effects := defender.active_effects ++ [shield] }
          sp b =
        0.5 * GameState.damageRaw actor defender sp b ∧
      GameState.calculate_damage actor
          { defender with active_effects := defender.active_effects ++ [shield] }
          sp b =
        max 0 (pyRound (0.5 * GameState.damageRaw actor defender sp b))) ∧
    (sp.element.strengths.contains shield.name = true →
      GameState.damageRaw actor
          { defender with active_effects := defender.active_effects ++ [shield] }
          sp b =
        1.05 * GameState.damageRaw actor defender sp b ∧
      GameState.calculate_damage actor
          { defender with active_effects := defender.active_effects ++ [shield] }
          sp b =
        max 0 (pyRound (1.05 * GameState.damageRaw actor defender sp b))) ∧
    ((sp.element.strengths.contains shield.name = false ∧
      sp.element.weaknesses.contains shield.name = false) →
      GameState.damageRaw actor
          { defender with active_effects := defender.active_effects ++ [shield] }
          sp b =
        0.9 * GameState.damageRaw actor defender sp b ∧
      GameState.calculate_damage actor
          { defender with active_effects := defender.active_effects ++ [shield] }
          sp b =
        max 0 (pyRound (0.9 * GameState.damageRaw actor defender sp b))) := by
  have hbase := damageRaw_single_shield actor defender shield sp b hdef hnone
  refine ⟨?_, ?_, ?_⟩
  · rintro ⟨hs, hw⟩
    rw [hs, hw] at hbase
    simp only [Bool.false_eq_true, if_false, if_true] at hbase
    exact ⟨hbase, by rw [GameState.calculate_damage, hbase]⟩
  · intro hs
    rw [hs] at hbase
    simp only [if_true] at hbase
    exact ⟨hbase, by rw [GameState.calculate_damage, hbase]⟩
  · rintro ⟨hs, hw⟩
    rw [hs, hw] at hbase
    simp only [Bool.false_eq_true, if_false] at hbase
    exact ⟨hbase, by rw [GameState.calculate_damage, hbase]⟩

/-- Witness for C4 at the concrete fixtures (MYTH shield vs FIRE spell). -/
theorem C4_witness :
    c4shield.effect_type = .DEFENSE ∧
    (∀ e ∈ c4defender.active_effects, e.is_defense = false) ∧
    ((c4spell.element.strengths.contains c4shield.name = false ∧
      c4spell.element.weaknesses.contains c4shield.name = true) →
      GameState.damageRaw c4actor
          { c4defender with active_effects := c4defender.active_effects ++ [c4shield] }
          c4spell 10 =
        0.5 * GameState.damageRaw c4actor c4defender c4spell 10 ∧
      GameState.calculate_damage c4actor
          { c4defender with active_effects := c4defender.active_effects ++ [c4shield] }
          c4spell 10 =
        max 0 (pyRound (0.5 * GameState.damageRaw c4actor c4defender c4spell 10))) := by
  have h1 : c4shield.effect_type = .DEFENSE := rfl
  have h2 : ∀ e ∈ c4defender.active_effects, e.is_defense = false := by
    intro e he
    simp [c4defender, testState] at he
  exact ⟨h1, h2, (C4_shield_factor c4actor c4defender c4shield c4spell 10 h1 h2).1⟩

theorem testWizard_damage_multiplier : testWizard.damage_multiplier = 1 := by
  show (1.25 : ℝ) ^ ((0 : ℝ) ^ (2 : ℕ)) = 1
  rw [zero_pow (by norm_num : (2 : ℕ) ≠ 0), Real.rpow_zero]

theorem testWizard2_damage_reduction : testWizard2.damage_reduction = 1.1 := by
  show (1.1 : ℝ) * ((8.0 / 11.0 : ℝ)) ^ ((0 : ℝ) ^ (1.8 : ℝ)) = 1.1
  rw [Real.zero_rpow (by norm_num), Real.rpow_zero]
  norm_num

theorem c4_damageRaw_noshield :
    GameState.damageRaw c4actor c4defender c4spell 10 = 11 := by
  simp only [GameState.damageRaw, c4actor, c4defender, testState,
    PlayerState.buffs, PlayerState.debuffs, PlayerState.defenses,
    List.filter_nil, List.foldl_nil]
  rw [testWizard_damage_multiplier]
  have : (testState 1 testWizard2 100 10).player.wizard = testWizard2 := rfl
  rw [show Wizard.damage_reduction testWizard2 = 1.1 from
    testWizard2_damage_reduction]
  norm_num

theorem pyRound_eleven : pyRound (11 : ℝ) = 11 := by
  have h : ((11 : ℤ) : ℝ) = (11 : ℝ) := by norm_num
  rw [← h, pyRound_intCast]

theorem pyRound_eleven_halves : pyRound (11 / 2 : ℝ) = 6 := by
  have hf : (⌊(11 / 2 : ℝ)⌋ : ℤ) = 5 := Int.floor_eq_iff.mpr (by norm_num)
  simp only [pyRound, hf]
  rw [if_neg (by norm_num), if_neg (by norm_num), if_neg (by decide)]
  decide

/-- Counterexample for C4 as frozen: the integer damages are NOT in an
exact 0.5 ratio. With trivial multipliers and base 10 the no-shield damage
is 11, while behind a weakness-list shield the returned damage is
`round(5.5) = 6 ≠ 0.5 * 11`. -/
theorem C4_counterexample :
    GameState.calculate_damage c4actor c4defender c4spell 10 = 11 ∧
    GameState.calculate_damage c4actor c4defenderShield c4spell 10 = 6 ∧
    ¬ ((6 : ℝ) = 0.5 * 11) := by
  have hns : GameState.calculate_damage c4actor c4defender c4spell 10 = 11 := by
    rw [GameState.calculate_damage, c4_damageRaw_noshield, pyRound_eleven]
    rfl
  have hshield : c4defenderShield =
      { c4defender with active_effects := c4defender.active_effects ++ [c4shield] } := rfl
  have h1 : c4shield.effect_type = .DEFENSE := rfl
  have h2 : ∀ e ∈ c4defender.active_effects, e.is_defense = false := by
    intro e he
    simp [c4defender, testState] at he
  have hraw := damageRaw_single_shield c4actor c4defender c4shield c4spell 10 h1 h2
  have hcontains1 : c4spell.element.strengths.contains c4shield.name = false := by
    decide
  have hcontains2 : c4spell.element.weaknesses.contains c4shield.name = true := by
    decide
  rw [hcontains1, hcontains2] at hraw
  simp only [Bool.false_eq_true, if_false, if_true] at hraw
  have hs : GameState.calculate_damage c4actor c4defenderShield c4spell 10 = 6 := by
    rw [GameState.calculate_damage, hshield, hraw, c4_damageRaw_noshield]
    have : (0.5 : ℝ) * 11 = 11 / 2 := by norm_num
    rw [this, pyRound_eleven_halves]
    rfl
  exact ⟨hns, hs, by norm_num⟩

theorem mem_all_actions {w : Wizard} {a : Action} :
    a ∈ w.all_actions ↔
      ((∃ sp ∈ w.spells, a = .castSpell sp) ∨ a = .heal w.healing ∨
        a = .defend w.primary_element ∨ a = .defend w.secondary_element) := by
  simp only [Wizard.all_actions, List.mem_append, List.mem_map,
    List.mem_mergeSort, List.mem_cons, List.not_mem_nil, or_false]
  constructor
  · rintro (⟨sp, hsp, rfl⟩ | h | h | h)
    · exact Or.inl ⟨sp, hsp, rfl⟩
    · exact Or.inr (Or.inl h)
    · exact Or.inr (Or.inr (Or.inl h))
    · exact Or.inr (Or.inr (Or.inr h))
  · rintro (⟨sp, hsp, rfl⟩ | h | h | h)
    · exact Or.inl ⟨sp, hsp, rfl⟩
    · exact Or.inr (Or.inl h)
    · exact Or.inr (Or.inr (Or.inl h))
    · exact Or.inr (Or.inr (Or.inr h))

/-- C7: `affordable_actions(mana)` is the order-preserving filter of
`all_actions()` keeping exactly the actions with `mana_cost() <= mana`
(a sublist with that membership characterization); and at mana 0 — with the
strength/healing attributes in `[0, 1]` — it contains only Defend actions
(cost 0, both present), excluding the Heal and every Spell, whose costs are
at least 3 and hence positive. -/
theorem C7_affordable_filter (w : Wizard)
    (hheal0 : 0 ≤ w.healing) (hheal1 : w.healing ≤ 1)
    (hsp : ∀ sp ∈ w.spells, 0 ≤ sp.strength ∧ sp.strength ≤ 1) :
    (∀ m : ℤ, (w.affordable_actions m).Sublist w.all_actions ∧
      ∀ a : Action, a ∈ w.affordable_actions m ↔
        (a ∈ w.all_actions ∧ a.mana_cost ≤ m)) ∧
    (∀ a ∈ w.affordable_actions 0, ∃ e, a = Action.defend e) ∧
    Action.defend w.primary_element ∈ w.affordable_actions 0 ∧
    Action.defend w.secondary_element ∈ w.affordable_actions 0 := by
  have hmemaff : ∀ (m : ℤ) (a : Action), a ∈ w.affordable_actions m ↔
      (a ∈ w.all_actions ∧ a.mana_cost ≤ m) := by
    intro m a
    simp [Wizard.affordable_actions, List.mem_filter]
  refine ⟨fun m => ⟨List.filter_sublist _, hmemaff m⟩, ?_, ?_, ?_⟩
  · intro a ha
    obtain ⟨hmem, hcost⟩ := (hmemaff 0 a).mp ha
    rcases mem_all_actions.mp hmem with ⟨sp, hsp', rfl⟩ | rfl | rfl | rfl
    · have := spell_cost_ge sp (hsp sp hsp').1
      omega
    · have := heal_cost_ge w.healing hheal0
      omega
    · exact ⟨_, rfl⟩
    · exact ⟨_, rfl⟩
  · refine (hmemaff 0 _).mpr ⟨mem_all_actions.mpr ?_, ?_⟩
    · exact Or.inr (Or.inr (Or.inl rfl))
    · simp [Action.mana_cost]
  · refine (hmemaff 0 _).mpr ⟨mem_all_actions.mpr ?_, ?_⟩
    · exact Or.inr (Or.inr (Or.inr rfl))
    · simp [Action.mana_cost]

/-- Witness for C7 at the all-zero-attributes wizard. -/
theorem C7_witness :
    (0 ≤ testWizard.healing ∧ testWizard.healing ≤ 1 ∧
      (∀ sp ∈ testWizard.spells, 0 ≤ sp.strength ∧ sp.strength ≤ 1)) ∧
    (∀ a ∈ testWizard.affordable_actions 0, ∃ e, a = Action.defend e) ∧
    Action.defend testWizard.primary_element ∈ testWizard.affordable_actions 0 := by
  have h0 : (0 : ℝ) ≤ testWizard.healing := le_refl 0
  have h1 : testWizard.healing ≤ 1 := by
    show (0 : ℝ) ≤ 1
    norm_num
  have h2 : ∀ sp ∈ testWizard.spells, 0 ≤ sp.strength ∧ sp.strength ≤ 1 := by
    intro sp h
    simp [testWizard] at h
  have hmain := C7_affordable_filter testWizard h0 h1 h2
  exact ⟨⟨h0, h1, h2⟩, hmain.2.1, hmain.2.2.1⟩

/-- C8 (amended): the chooser's integer is mapped back through Python list
indexing `affordable_actions(mana)[index - 1]`: indices `1..n` return the
corresponding action; indices `1-n..0` do NOT raise but silently wrap
around and return an action counted from the end (index 0 is the LAST
affordable action); only indices above `n` or below `1-n` raise
`IndexError`. -/
theorem C8_chooser_mapping (gs : GameState) (i : ℕ) (s : PlayerState)
    (hs : gs.player_states[i]? = some s) (idx : ℤ) :
    choose_action gs i idx =
      pyIndex (s.player.wizard.affordable_actions s.current_mana) (idx - 1) ∧
    (∀ (l : List Action) (a : Action), 1 ≤ idx →
      l[(idx - 1).toNat]? = some a → pyIndex l (idx - 1) = .ok a) ∧
    (∀ (l : List Action) (a : Action), 1 - (l.length : ℤ) ≤ idx → idx ≤ 0 →
      l[(idx - 1 + l.length).toNat]? = some a → pyIndex l (idx - 1) = .ok a) ∧
    (∀ l : List Action, ((l.length : ℤ) < idx ∨ idx < 1 - (l.length : ℤ)) →
      pyIndex l (idx - 1) = .error "list index out of range") := by
  refine ⟨?_, ?_, ?_, ?_⟩
  · simp only [choose_action, hs]
  · intro l a h1 hget
    simp only [pyIndex]
    rw [if_neg (show ¬(idx - 1 < 0) by omega),
      if_pos (show (0 : ℤ) ≤ idx - 1 by omega), hget]
  · intro l a hlb hub hget
    simp only [pyIndex]
    rw [if_pos (show idx - 1 < 0 by omega),
      if_pos (show (0 : ℤ) ≤ idx - 1 + l.length by omega), hget]
  · intro l hrange
    rcases hrange with hhi | hlo
    · have hlen : (0 : ℤ) ≤ (l.length : ℤ) := Int.ofNat_nonneg _
      simp only [pyIndex]
      rw [if_neg (show ¬(idx - 1 < 0) by omega),
        if_pos (show (0 : ℤ) ≤ idx - 1 by omega),
        List.getElem?_eq_none (show l.length ≤ (idx - 1).toNat by omega)]
    · have hlen : (0 : ℤ) ≤ (l.length : ℤ) := Int.ofNat_nonneg _
      simp only [pyIndex]
      rw [if_pos (show idx - 1 < 0 by omega),
        if_neg (show ¬((0 : ℤ) ≤ idx - 1 + l.length) by omega)]

theorem testWizard_all_actions :
    testWizard.all_actions = [.heal 0, .defend .FIRE, .defend .ICE] := by
  simp [Wizard.all_actions, testWizard, List.mergeSort]

theorem testWizard_affordable_zero :
    testWizard.affordable_actions 0 = [.defend .FIRE, .defend .ICE] := by
  rw [Wizard.affordable_actions, testWizard_all_actions]
  simp only [List.filter_cons, List.filter_nil]
  rw [decide_eq_false (show ¬(Action.mana_cost (.heal 0) ≤ 0) by
      rw [heal_cost_zero]; norm_num),
    decide_eq_true (show Action.mana_cost (.defend .FIRE) ≤ 0 by
      simp [Action.mana_cost]),
    decide_eq_true (show Action.mana_cost (.defend .ICE) ≤ 0 by
      simp [Action.mana_cost])]
  simp

/-- Counterexample for C8 as frozen: chooser index 0 — outside the valid
1-based range — does NOT raise: Python negative indexing maps it to
`affordable[-1]`, the LAST affordable action (here the secondary-element
Defend). -/
theorem C8_counterexample :
    choose_action (testGS 50 0 60 0) 0 0 = .ok (.defend .ICE) := by
  have h1 : choose_action (testGS 50 0 60 0) 0 0 =
      pyIndex (testWizard.affordable_actions 0) (0 - 1) := rfl
  rw [h1, testWizard_affordable_zero]
  simp only [pyIndex, List.length_cons, List.length_nil]
  norm_num

/-- Witness for C8: the mapping equation at a concrete state. -/
theorem C8_witness :
    ((testGS 50 0 60 0).player_states[0]? =
      some (testState 0 testWizard 50 0)) ∧
    (choose_action (testGS 50 0 60 0) 0 2 =
      pyIndex ((testState 0 testWizard 50 0).player.wizard.affordable_actions
        (testState 0 testWizard 50 0).current_mana) (2 - 1)) := by
  have hs : (testGS 50 0 60 0).player_states[0]? =
      some (testState 0 testWizard 50 0) := rfl
  exact ⟨hs, (C8_chooser_mapping _ 0 _ hs 2).1⟩

/-- C9 (amended): neither `Wizard.__init__` nor `Wizard.build_from_json`
compares the two elements: a payload naming the same element twice (with
all required keys present and valid names) is accepted and yields a Wizard
whose primary and secondary elements are equal, for every element. -/
theorem C9_no_distinctness_check (e : Element) :
    Wizard.build_from_json (c9payload e) = .ok (c9wizard e) ∧
    (c9wizard e).primary_element = (c9wizard e).secondary_element := by
  cases e <;> exact ⟨rfl, rfl⟩

/-- Counterexample for C9 as frozen: the FIRE/FIRE payload is NOT rejected;
construction succeeds and both elements are FIRE. -/
theorem C9_counterexample :
    Wizard.build_from_json (c9payload .FIRE) = .ok (c9wizard .FIRE) ∧
    (c9wizard .FIRE).primary_element = (c9wizard .FIRE).secondary_element ∧
    (c9wizard .FIRE).primary_element = .FIRE := by
  exact ⟨rfl, rfl, rfl⟩

end WizardBattle
